import Mathlib

/-!
Verification development for the `calsim_toolkit` repository's tabular
data model: the tidy/wide/condense format validators and transforms
(`src/tools/transform.py`, `src/tools/validation.py`), the pathname key
codec, and the aggregation statistics (`src/analysis/stats.py`).

Python `pandas` DataFrames are shallowly embedded as typed Lean
structures; cell values are rationals plus an explicit NaN marker;
fallible code returns `Except PdErr`.  Behavior of the pandas library
calls the source relies on (`infer_freq`, `unstack`, `stack`, `fillna`,
`replace`, `rank`) is modelled from the library's documented semantics,
noted at each definition.
-/

/-- A float cell value: either the canonical missing-value marker (NaN)
or a genuine number, modelled as a rational. -/
inductive CellVal
  | nan
  | num (q : Rat)
deriving DecidableEq, Repr

/-- A timestamp with minute granularity (CalSim time series are monthly,
daily, hourly or 6-hourly, so minutes suffice). -/
structure DateTime where
  year : Int
  month : Nat
  day : Nat
  hour : Nat
  minute : Nat
deriving DecidableEq, Repr

/-- Gregorian leap-year test. -/
def isLeap (y : Int) : Bool :=
  (y % 4 == 0 && y % 100 != 0) || (y % 400 == 0)

/-- Days in a Gregorian month. -/
def daysInMonth (y : Int) (m : Nat) : Nat :=
  if m = 2 then (if isLeap y then 29 else 28)
  else if m = 4 ∨ m = 6 ∨ m = 9 ∨ m = 11 then 30 else 31

/-- Days since 1970-01-01 of a civil date (Howard Hinnant's algorithm). -/
def daysFromCivil (y : Int) (m : Nat) (d : Nat) : Int :=
  let y' : Int := if m ≤ 2 then y - 1 else y
  let era : Int := (if 0 ≤ y' then y' else y' - 399) / 400
  let yoe : Int := y' - era * 400
  let mp : Int := (Int.ofNat m + 9) % 12
  let doy : Int := (153 * mp + 2) / 5 + Int.ofNat d - 1
  let doe : Int := yoe * 365 + yoe / 4 - yoe / 100 + doy
  era * 146097 + doe - 719468

/-- Minutes since the epoch of a timestamp; the time-line view of a
`DateTime`, used for spacing inference. -/
def DateTime.toMinutes (t : DateTime) : Int :=
  daysFromCivil t.year t.month t.day * 1440 + Int.ofNat (t.hour * 60 + t.minute)

/-- Python exceptions raised by the embedded code, tagged with the
exception class and message. -/
inductive PdErr
  | typeError (msg : String)
  | valueError (msg : String)
  | keyError (msg : String)
  | runtimeError (msg : String)
  | attributeError (msg : String)
deriving DecidableEq, Repr

/-- `Series.fillna(v)` on one cell: NaN becomes the number `v`. -/
def CellVal.fillna (v : Rat) : CellVal → CellVal
  | .nan => .num v
  | .num q => .num q

/-- `DataFrame.replace(old, nan)` on one cell: cells equal to `old`
become NaN. -/
def CellVal.replaceWithNan (old : Rat) : CellVal → CellVal
  | .nan => .nan
  | .num q => if q = old then .nan else .num q

/-- Duplicate-free sublist keeping the first occurrence of each element,
the order in which pandas `unstack`/`unique` materialize distinct keys. -/
def firstDedup [DecidableEq α] : List α → List α
  | [] => []
  | a :: l => a :: (firstDedup l).filter (fun x => x ≠ a)

/-- Boolean no-duplicates test (pandas `duplicated(keep=False).any()`
negated). -/
def nodupB [DecidableEq α] : List α → Bool
  | [] => true
  | a :: l => !l.contains a && nodupB l

/-- Boolean set equality of two lists (Python `set(a) == set(b)`). -/
def eqSetB [DecidableEq α] (a b : List α) : Bool :=
  a.all (fun x => b.contains x) && b.all (fun x => a.contains x)

/-- Error-propagating map (Python list processing that stops at the
first raised exception). -/
def mapE (f : α → Except PdErr β) : List α → Except PdErr (List β)
  | [] => .ok []
  | a :: l =>
    match f a with
    | .error e => .error e
    | .ok b =>
      match mapE f l with
      | .error e => .error e
      | .ok bs => .ok (b :: bs)

/-- Python `str.split(sep)` on the character list of a string: splits at
every occurrence of `sep`, keeping empty segments. -/
def splitL (sep : Char) : List Char → List (List Char)
  | [] => [[]]
  | c :: cs =>
    if c = sep then [] :: splitL sep cs
    else
      match splitL sep cs with
      | [] => [[c]]
      | h :: t => (c :: h) :: t

/-- Splitting a list at an explicit separator-free prefix. -/
theorem splitL_append (sep : Char) (xs ys : List Char) (h : sep ∉ xs) :
    splitL sep (xs ++ sep :: ys) = xs :: splitL sep ys := by
  induction xs with
  | nil => simp [splitL]
  | cons c cs ih =>
    simp only [List.mem_cons, not_or] at h
    have hne : ¬ c = sep := fun hceq => h.1 hceq.symm
    simp only [List.cons_append, splitL, if_neg hne, List.append_eq]
    rw [ih h.2]

/-- The canonical CalSim pathname string `"/{A}/{B}/{C}//{E}/{F}/"`
(the format string in `join_pathname`, `src/tools/transform.py`). -/
def mkPathname (a b c e f : String) : String :=
  ⟨'/' :: a.data ++ '/' :: b.data ++ '/' :: c.data ++ '/' :: '/' :: e.data
    ++ '/' :: f.data ++ ['/']⟩

theorem splitL_mkPathname (a b c e f : String)
    (ha : '/' ∉ a.data) (hb : '/' ∉ b.data) (hc : '/' ∉ c.data)
    (he : '/' ∉ e.data) (hf : '/' ∉ f.data) :
    splitL '/' (mkPathname a b c e f).data
      = [[], a.data, b.data, c.data, [], e.data, f.data, []] := by
  have h1 : (mkPathname a b c e f).data
      = [] ++ '/' :: (a.data ++ '/' :: (b.data ++ '/' :: (c.data
        ++ '/' :: ([] ++ '/' :: (e.data ++ '/' :: (f.data ++ '/' :: [])))))) := by
    simp [mkPathname]
  rw [h1, splitL_append '/' [] _ (by simp), splitL_append '/' a.data _ ha,
    splitL_append '/' b.data _ hb, splitL_append '/' c.data _ hc,
    splitL_append '/' [] _ (by simp), splitL_append '/' e.data _ he,
    splitL_append '/' f.data _ hf]
  rfl

/-- `variables.t_steps` (`src/tools/variables.py`): CalSim interval
token to pandas frequency string. -/
def t_steps : List (String × String) :=
  [("1MON", "M"), ("1DAY", "D"), ("1HOUR", "H"), ("6HOUR", "6H")]

/-- `variables.t_steps_inv`: the inverted dictionary, pandas frequency
string to CalSim interval token. -/
def t_steps_inv : List (String × String) :=
  t_steps.map (fun kv => (kv.2, kv.1))

/-- `variables.water_months`: water-year month ordering Oct..Sep. -/
def water_months : List String :=
  ["Oct", "Nov", "Dec", "Jan", "Feb", "Mar",
   "Apr", "May", "Jun", "Jul", "Aug", "Sep"]

/-- English month abbreviations, `datetime.strftime('%b')` for months
1..12 (used by `MonthlyMean`). -/
def monthAbbrev (m : Nat) : String :=
  (["Jan", "Feb", "Mar", "Apr", "May", "Jun", "Jul", "Aug", "Sep", "Oct",
    "Nov", "Dec"]).getD (m - 1) ""

/-- Strictly-increasing test for an integer list (pandas
`Index.is_monotonic_increasing` together with uniqueness). -/
def strictlyIncreasing : List Int → Bool
  | [] => true
  | [_] => true
  | a :: b :: t => a < b && strictlyIncreasing (b :: t)

/-- Consecutive differences of a list. -/
def diffs : List Int → List Int
  | [] => []
  | [_] => []
  | a :: b :: t => (b - a) :: diffs (b :: t)

/-- Is every date in the list the last day of its month, with months
consecutive and the time of day constant?  (pandas month-end frequency
`'M'`.) -/
def monthEndSeq : List DateTime → Bool
  | [] => true
  | [d] => d.day = daysInMonth d.year d.month
  | a :: b :: t =>
    (a.day = daysInMonth a.year a.month : Bool)
      && (if a.month = 12
          then b.year = a.year + 1 && b.month = 1
          else b.year = a.year && b.month = a.month + 1)
      && b.hour = a.hour && b.minute = a.minute
      && monthEndSeq (b :: t)

/-- Like `monthEndSeq` but for first-of-month dates (pandas `'MS'`). -/
def monthStartSeq : List DateTime → Bool
  | [] => true
  | [d] => d.day = 1
  | a :: b :: t =>
    (a.day = 1 : Bool)
      && (if a.month = 12
          then b.year = a.year + 1 && b.month = 1
          else b.year = a.year && b.month = a.month + 1)
      && b.hour = a.hour && b.minute = a.minute
      && monthStartSeq (b :: t)

/-- `datetime.strftime('%a')`-style weekday of a date, for pandas
weekly aliases (1970-01-01 was a Thursday). -/
def weekdayAbbrev (d : DateTime) : String :=
  match ((daysFromCivil d.year d.month d.day % 7 + 7) % 7).toNat with
  | 0 => "THU"
  | 1 => "FRI"
  | 2 => "SAT"
  | 3 => "SUN"
  | 4 => "MON"
  | 5 => "TUE"
  | _ => "WED"

/-- Frequency string for a constant spacing of `d` minutes anchored at
the first date (pandas `_FrequencyInferer` for fixed-delta sequences:
whole multiples of 7 days infer the weekly alias `'W-<weekday>'` /
`'<n>W-<weekday>'`, other whole multiples of a day `'D'`/`'<n>D'`, of an
hour `'H'`/`'6H'`/`'<n>H'`, otherwise minute-based `'<n>T'`). -/
def freqOfDelta (d : Int) (anchor : DateTime) : String :=
  if d % 10080 = 0 then
    (if d = 10080 then "W-" ++ weekdayAbbrev anchor
     else toString (d / 10080) ++ "W-" ++ weekdayAbbrev anchor)
  else if d % 1440 = 0 then
    (if d = 1440 then "D" else toString (d / 1440) ++ "D")
  else if d % 60 = 0 then
    (if d = 60 then "H" else toString (d / 60) ++ "H")
  else toString d ++ "T"

/-- Model of `pandas.infer_freq`: raises `ValueError` on fewer than 3
dates; returns `None` unless the sequence is strictly increasing;
infers a fixed-delta frequency, or a month-end (`'M'`) / month-start
(`'MS'`) frequency, returning `None` for anything else. -/
def inferFreq (ds : List DateTime) : Except PdErr (Option String) :=
  if ds.length < 3 then
    .error (.valueError "Need at least 3 dates to infer frequency")
  else
    let ms := ds.map DateTime.toMinutes
    if !strictlyIncreasing ms then .ok none
    else
      match diffs ms with
      | [] => .ok none
      | d :: rest =>
        if rest.all (fun x => x = d) then
          .ok (some (freqOfDelta d (ds.headD ⟨1970, 1, 1, 0, 0⟩)))
        else if monthEndSeq ds then .ok (some "M")
        else if monthStartSeq ds then .ok (some "MS")
        else .ok none

/-- Code-point lexicographic comparison of character lists (Python
string `<`). -/
def strLtCore : List Char → List Char → Bool
  | [], [] => false
  | [], _ :: _ => true
  | _ :: _, [] => false
  | a :: as, b :: bs =>
    if a.toNat < b.toNat then true
    else if b.toNat < a.toNat then false
    else strLtCore as bs

/-- Python string `<`. -/
def strLtB (a b : String) : Bool := strLtCore a.data b.data

/-- Lexicographic `<` on label tuples (pandas MultiIndex ordering). -/
def keyLtB : List String → List String → Bool
  | [], [] => false
  | [], _ :: _ => true
  | _ :: _, [] => false
  | a :: as, b :: bs =>
    if strLtB a b then true
    else if strLtB b a then false
    else keyLtB as bs

/-- Lexicographic `≤` on label tuples. -/
def keyLeB (a b : List String) : Bool := !keyLtB b a

/-- Chronological `≤` on timestamps (pandas DatetimeIndex ordering). -/
def dtLeB (a b : DateTime) : Bool := decide (a.toMinutes ≤ b.toMinutes)

/-- Insertion into a sorted list by a boolean `≤`. -/
def insertLe (le : α → α → Bool) (x : α) : List α → List α
  | [] => [x]
  | y :: l => if le x y then x :: y :: l else y :: insertLe le x l

/-- Insertion sort by a boolean `≤` (the sorted orders pandas `unstack`
and `stack` materialize). -/
def sortLe (le : α → α → Bool) : List α → List α
  | [] => []
  | x :: l => insertLe le x (sortLe le l)

/-- Adjacent-pairs sortedness test for a boolean `≤`. -/
def chainLe (le : α → α → Bool) : List α → Bool
  | [] => true
  | [_] => true
  | a :: b :: l => le a b && chainLe le (b :: l)

/-- One row of a tidy DataFrame: columns DateTime, Pathname, Units,
Data Type, Value, and Study (meaningful only when the table's
`hasStudy` flag is set). -/
structure TidyRow where
  dateTime : DateTime
  pathname : String
  units : String
  dataType : String
  value : CellVal
  study : String
deriving DecidableEq, Repr

/-- A tidy DataFrame: the flag records whether the optional Study
column is present. -/
structure TidyTable where
  hasStudy : Bool
  rows : List TidyRow
deriving DecidableEq, Repr

/-- One row of the intermediate "split" frame (tidy rows with Pathname
replaced by Parts A, B, C, E, F; `unitsType` holds the merged
'Units & Type' column on the condense path). -/
structure PartedRow where
  dateTime : DateTime
  partA : String
  partB : String
  partC : String
  partE : String
  partF : String
  units : String
  dataType : String
  unitsType : String
  value : CellVal
  study : String
deriving DecidableEq, Repr

/-- A long-form frame of parted rows; the flags record which Part
columns are actually present (a stacked condense table may lack some). -/
structure LongFrame where
  hasA : Bool
  hasB : Bool
  hasC : Bool
  hasE : Bool
  hasF : Bool
  hasStudy : Bool
  rows : List PartedRow
deriving DecidableEq, Repr

/-- A pivoted DataFrame (wide or condense): a column MultiIndex with
`levelNames`, one key tuple per column, a DateTime row index, and a
row-major cell grid. -/
structure PivotTable where
  levelNames : List String
  colKeys : List (List String)
  times : List DateTime
  cells : List (List CellVal)
deriving DecidableEq, Repr

/-- A DataFrame as passed to the toolkit's duck-typed entry points:
either a flat-column (tidy-shaped) frame or a pivoted frame. -/
inductive Table
  | tidy (t : TidyTable)
  | pivot (p : PivotTable)
deriving DecidableEq, Repr

/-- The uniqueness key of a tidy row: (Pathname, DateTime, Units,
Data Type) plus Study when present (`validation.is_tidy` checks
`df.duplicated(check_col)` over exactly these columns). -/
def tidyKey (hs : Bool) (r : TidyRow) :
    String × DateTime × String × String × Option String :=
  (r.pathname, r.dateTime, r.units, r.dataType, if hs then some r.study else none)

/-- `validation.is_tidy` on a tidy-shaped frame: no duplicate keys.
(The column-set comparison holds by construction of `TidyTable`.) -/
def is_tidyT (t : TidyTable) : Bool :=
  nodupB (t.rows.map (tidyKey t.hasStudy))

/-- The wide column level names (`val_lvl` in `validation.is_wide`). -/
def wideLvls : List String :=
  ["Part A", "Part B", "Part C", "Part E", "Part F", "Units", "Data Type"]

/-- `validation.is_wide` on a pivoted frame: level-name set matches the
seven wide levels (plus Study when present) and no duplicate columns. -/
def is_wideP (p : PivotTable) : Bool :=
  let val_lvl := if p.levelNames.contains "Study" then wideLvls ++ ["Study"]
                 else wideLvls
  eqSetB val_lvl p.levelNames && nodupB p.colKeys

/-- The condense column level names (`val_lvl` in
`validation.is_condense`). -/
def condenseLvls : List String :=
  ["Part A", "Part B", "Part C", "Part E", "Part F", "Units & Type"]

/-- `validation.is_condense`: level-name set a subset of the condense
levels (plus Study when present) and no duplicate columns. -/
def is_condenseP (p : PivotTable) : Bool :=
  let val_lvl := if p.levelNames.contains "Study" then condenseLvls ++ ["Study"]
                 else condenseLvls
  p.levelNames.all (fun n => val_lvl.contains n) && nodupB p.colKeys

/-- `validation.is_tidy` at the duck-typed entry points: a pivoted
frame's MultiIndex columns never equal the flat tidy column set. -/
def is_tidy : Table → Bool
  | .tidy t => is_tidyT t
  | .pivot _ => false

/-- `validation.is_wide`: a flat-column frame has column level names
`[None]`, never the wide level set. -/
def is_wide : Table → Bool
  | .tidy _ => false
  | .pivot p => is_wideP p

/-- `validation.is_condense`: likewise false on flat-column frames. -/
def is_condense : Table → Bool
  | .tidy _ => false
  | .pivot p => is_condenseP p

/-- `split_pathname` on one row: `str.split('/', expand=True)` assigned
to 8 part columns, keeping Parts A, B, C, E, F.  A pathname that does
not split into exactly 8 segments makes the pandas column assignment
raise (`Columns must be same length as key`). -/
def splitRow (r : TidyRow) : Except PdErr PartedRow :=
  match splitL '/' r.pathname.data with
  | [_z, a, b, c, _d, e, f, _s] =>
    .ok ⟨r.dateTime, ⟨a⟩, ⟨b⟩, ⟨c⟩, ⟨e⟩, ⟨f⟩, r.units, r.dataType, "",
      r.value, r.study⟩
  | _ => .error (.valueError "Columns must be same length as key")

/-- The split stage of `split_pathname`: on a zero-row frame the
assignment of the 8 part columns from the empty `str.split(expand=True)`
result raises `ValueError('Columns must be same length as key')`. -/
def splitRows : List TidyRow → Except PdErr (List PartedRow)
  | [] => .error (.valueError "Columns must be same length as key")
  | r :: rest => mapE splitRow (r :: rest)

/-- `transform.split_pathname` over a tidy frame. -/
def split_pathnameT (t : TidyTable) : Except PdErr LongFrame :=
  match splitRows t.rows with
  | .error e => .error e
  | .ok prs =>
    .ok { hasA := true, hasB := true, hasC := true, hasE := true,
          hasF := true, hasStudy := t.hasStudy, rows := prs }

/-- Python truthiness of an optional-string keyword argument
(`if v:` is false for both `None` and the empty string). -/
def truthy : Option String → Bool
  | none => false
  | some s => !s.isEmpty

/-- `transform.join_pathname` over a long-form frame: infers Part E from
the timestamp spacing when the `e` argument is falsy (a pandas-inferred
frequency outside `t_steps_inv` raises `KeyError`), fills absent
required part columns from truthy keyword arguments, raises `ValueError`
naming the columns still missing, then builds the Pathname column and
drops the part columns.  Selecting the part columns raises `KeyError`
when 'Part B' is absent (it is never filled). -/
def join_pathnameF (fr : LongFrame) (a c e f : Option String) :
    Except PdErr (List TidyRow) :=
  match (if truthy e then .ok e
         else
           match inferFreq (firstDedup (fr.rows.map (·.dateTime))) with
           | .error err => .error err
           | .ok none => .ok none
           | .ok (some s) =>
             match t_steps_inv.lookup s with
             | some tok => .ok (some tok)
             | none => .error (.keyError s) : Except PdErr (Option String)) with
  | .error err => .error err
  | .ok e' =>
    let miss : List String :=
      (if !fr.hasA && !truthy a then ["Part A"] else [])
        ++ (if !fr.hasC && !truthy c then ["Part C"] else [])
        ++ (if !fr.hasE && !truthy e' then ["Part E"] else [])
        ++ (if !fr.hasF && !truthy f then ["Part F"] else [])
    if miss = [] then
      if !fr.hasB then .error (.keyError "Part B")
      else
        .ok (fr.rows.map (fun r =>
          { dateTime := r.dateTime
            pathname := mkPathname
              (if fr.hasA then r.partA else a.getD "")
              r.partB
              (if fr.hasC then r.partC else c.getD "")
              (if fr.hasE then r.partE else e'.getD "")
              (if fr.hasF then r.partF else f.getD "")
            units := r.units
            dataType := r.dataType
            value := r.value
            study := r.study }))
    else
      .error (.valueError ("Values required for the following columns: "
        ++ String.intercalate ", " miss ++ "."))

/-- `DataFrame.unstack` against DateTime (shared tail of `tidy_to_wide`
and `tidy_to_condense`): raises on a duplicate (key, timestamp) pair,
materializes the distinct timestamps chronologically sorted and the
distinct column keys lexicographically sorted (pandas `unstack` sorts
both the resulting row index and column labels), fills absent
combinations with NaN, and infers the index frequency (pandas
`infer_freq` raises `ValueError` on fewer than 3 dates). -/
def pivotFrame (keyOf : PartedRow → List String) (names : List String)
    (prs : List PartedRow) : Except PdErr PivotTable :=
  let pairs := prs.map (fun r => (r.dateTime, keyOf r))
  if !nodupB pairs then
    .error (.valueError "Index contains duplicate entries, cannot reshape")
  else
    let times := sortLe dtLeB (firstDedup (prs.map (·.dateTime)))
    let keys := sortLe keyLeB (firstDedup (prs.map keyOf))
    match inferFreq times with
    | .error err => .error err
    | .ok _ =>
      .ok ⟨names, keys, times,
        times.map (fun ti => keys.map (fun k =>
          match prs.find? (fun r => decide (r.dateTime = ti ∧ keyOf r = k)) with
          | some r => r.value
          | none => .nan))⟩

/-- The wide column key of a parted row, in the `col_header` order of
`tidy_to_wide` (Study first when present). -/
def wideKeyOf (hs : Bool) (r : PartedRow) : List String :=
  (if hs then [r.study] else [])
    ++ [r.partA, r.partB, r.partC, r.partE, r.partF, r.units, r.dataType]

/-- `transform.tidy_to_wide`: validate, split the pathname, pivot the
Value column against DateTime over the full label set. -/
def tidy_to_wide (df : Table) : Except PdErr PivotTable :=
  match df with
  | .pivot _ =>
    .error (.typeError "Cannot transform DataFrame from tidy format to wide format.")
  | .tidy t =>
    if !is_tidyT t then
      .error (.typeError "Cannot transform DataFrame from tidy format to wide format.")
    else
      match splitRows t.rows with
      | .error e => .error e
      | .ok prs =>
        pivotFrame (wideKeyOf t.hasStudy)
          ((if t.hasStudy then ["Study"] else []) ++ wideLvls) prs

/-- Level value of a stacked column key, by level name
(`reset_index` turns each column level into a column). -/
def getLvl (names : List String) (k : List String) (n : String) : String :=
  match names.indexOf? n with
  | some i => k.getD i ""
  | none => ""

/-- `DataFrame.stack` of every column level followed by `reset_index`:
one row per (timestamp, column key), in row-major order; pandas sorts a
non-lexsorted column MultiIndex before stacking, so within each
timestamp the cells come out in lexicographic column-key order. -/
def stackRows (p : PivotTable) : List PartedRow :=
  (p.times.zip p.cells).flatMap (fun tc =>
    (sortLe (fun a b => keyLeB a.1 b.1) (p.colKeys.zip tc.2)).map (fun kv =>
      { dateTime := tc.1
        partA := getLvl p.levelNames kv.1 "Part A"
        partB := getLvl p.levelNames kv.1 "Part B"
        partC := getLvl p.levelNames kv.1 "Part C"
        partE := getLvl p.levelNames kv.1 "Part E"
        partF := getLvl p.levelNames kv.1 "Part F"
        units := getLvl p.levelNames kv.1 "Units"
        dataType := getLvl p.levelNames kv.1 "Data Type"
        unitsType := getLvl p.levelNames kv.1 "Units & Type"
        value := kv.2
        study := getLvl p.levelNames kv.1 "Study" }))

/-- `DataFrame.fillna(-901)` over the cell grid. -/
def fillnaGrid (p : PivotTable) : PivotTable :=
  { p with cells := p.cells.map (fun row => row.map (CellVal.fillna (-901))) }

/-- `transform.wide_to_tidy`: validate, fill NaNs with the -901
sentinel, stack every column level, rebuild the Pathname column, then
replace -901 with NaN. -/
def wide_to_tidy (df : Table) : Except PdErr TidyTable :=
  match df with
  | .tidy _ =>
    .error (.typeError "Cannot transform DataFrame from wide format to tidy format.")
  | .pivot p =>
    if !is_wideP p then
      .error (.typeError "Cannot transform DataFrame from wide format to tidy format.")
    else
      let hs := p.levelNames.contains "Study"
      let fr : LongFrame :=
        { hasA := p.levelNames.contains "Part A"
          hasB := p.levelNames.contains "Part B"
          hasC := p.levelNames.contains "Part C"
          hasE := p.levelNames.contains "Part E"
          hasF := p.levelNames.contains "Part F"
          hasStudy := hs
          rows := stackRows (fillnaGrid p) }
      match join_pathnameF fr none none none none with
      | .error e => .error e
      | .ok trows =>
        .ok ⟨hs, trows.map (fun r =>
          { r with value := r.value.replaceWithNan (-901) })⟩

/-- `transform.tidy_to_condense`: validate, split the pathname, merge
Units and Data Type into 'Units & Type', drop each of Parts A, C, E, F
(and Study) whose column holds a single distinct value, then pivot on
the sorted remaining labels (Study first). -/
def tidy_to_condense (df : Table) : Except PdErr PivotTable :=
  match df with
  | .pivot _ =>
    .error (.typeError "Cannot transform DataFrame from tidy format to condense format.")
  | .tidy t =>
    if !is_tidyT t then
      .error (.typeError "Cannot transform DataFrame from tidy format to condense format.")
    else
      match splitRows t.rows with
      | .error e => .error e
      | .ok prs0 =>
        let prs := prs0.map (fun r =>
          { r with unitsType := r.units ++ " " ++ r.dataType })
        let hs := t.hasStudy
        let keepA := (firstDedup (prs.map (·.partA))).length != 1
        let keepC := (firstDedup (prs.map (·.partC))).length != 1
        let keepE := (firstDedup (prs.map (·.partE))).length != 1
        let keepF := (firstDedup (prs.map (·.partF))).length != 1
        let keepS := hs && (firstDedup (prs.map (·.study))).length != 1
        let names := (if keepS then ["Study"] else [])
          ++ (if keepA then ["Part A"] else []) ++ ["Part B"]
          ++ (if keepC then ["Part C"] else [])
          ++ (if keepE then ["Part E"] else [])
          ++ (if keepF then ["Part F"] else []) ++ ["Units & Type"]
        let keyOf : PartedRow → List String := fun r =>
          (if keepS then [r.study] else [])
            ++ (if keepA then [r.partA] else []) ++ [r.partB]
            ++ (if keepC then [r.partC] else [])
            ++ (if keepE then [r.partE] else [])
            ++ (if keepF then [r.partF] else []) ++ [r.unitsType]
        pivotFrame keyOf names prs

/-- Python `str.split()` with no arguments: split on whitespace runs,
discarding empty segments. -/
def pySplitWs (s : String) : List String :=
  ((splitL ' ' s.data).filter (fun seg => seg ≠ [])).map (fun seg => ⟨seg⟩)

/-- `transform.condense_to_tidy`: validate, fill the sentinel, stack,
split 'Units & Type' back into Units and Data Type, rebuild Pathname
using row values plus the supplied overrides, restore NaNs. -/
def condense_to_tidy (df : Table) (a c f : Option String) :
    Except PdErr TidyTable :=
  match df with
  | .tidy _ =>
    .error (.typeError "Cannot transform DataFrame from condense format to tidy format.")
  | .pivot p =>
    if !is_condenseP p then
      .error (.typeError "Cannot transform DataFrame from condense format to tidy format.")
    else
      let hs := p.levelNames.contains "Study"
      let rows := stackRows (fillnaGrid p)
      if !p.levelNames.contains "Units & Type" then
        .error (.keyError "Units & Type")
      else
        match mapE (fun (r : PartedRow) =>
            match pySplitWs r.unitsType with
            | [u, d] => .ok { r with units := u, dataType := d }
            | _ => .error (.valueError "Columns must be same length as key")) rows with
        | .error e => .error e
        | .ok rows2 =>
          let fr : LongFrame :=
            { hasA := p.levelNames.contains "Part A"
              hasB := p.levelNames.contains "Part B"
              hasC := p.levelNames.contains "Part C"
              hasE := p.levelNames.contains "Part E"
              hasF := p.levelNames.contains "Part F"
              hasStudy := hs
              rows := rows2 }
          match join_pathnameF fr a c none f with
          | .error e => .error e
          | .ok trows =>
            .ok ⟨hs, trows.map (fun r =>
              { r with value := r.value.replaceWithNan (-901) })⟩

/-- The non-NaN numbers of a cell list. -/
def numsOf (vs : List CellVal) : List Rat :=
  vs.filterMap (fun v => match v with | .nan => none | .num q => some q)

/-- pandas `groupby(...).mean()` of one group's Value cells: mean of the
non-NaN values, NaN when there are none. -/
def meanCells (vs : List CellVal) : CellVal :=
  let ns := numsOf vs
  if ns.isEmpty then .nan else .num (ns.sum / (ns.length : Rat))

/-- pandas `groupby(...).sum()`: sum of the non-NaN values (0 when there
are none). -/
def sumCells (vs : List CellVal) : CellVal :=
  .num (numsOf vs).sum

/-- `water_year` in `AggregateAnnual` (`src/analysis/stats.py`):
`lambda x: x.year if x.month < 10 else x.year + 1` — a fixed Oct–Sep
water year, not parameterized by `eom`. -/
def water_year (x : DateTime) : Int :=
  if x.month < 10 then x.year else x.year + 1

/-- `pd.to_datetime(year, format='%Y')`: January 1 of the year; raises
`OutOfBoundsDatetime` outside the nanosecond-timestamp year range. -/
def toDatetimeY (y : Int) : Except PdErr DateTime :=
  if 1678 ≤ y ∧ y ≤ 2262 then .ok ⟨y, 1, 1, 0, 0⟩
  else .error (.valueError "Out of bounds nanosecond timestamp")

/-- The grouping key of `AggregateAnnual`: every column of the split
frame except Value, i.e. DateTime (already replaced by the water year),
Parts A–F, Units, Data Type, and Study when present. -/
structure GroupKey where
  dateTime : DateTime
  partA : String
  partB : String
  partC : String
  partE : String
  partF : String
  units : String
  dataType : String
  study : Option String
deriving DecidableEq, Repr

/-- Projection of a split-frame row onto its `AggregateAnnual` grouping
key. -/
def groupProj (hs : Bool) (r : PartedRow) : GroupKey :=
  ⟨r.dateTime, r.partA, r.partB, r.partC, r.partE, r.partF, r.units,
   r.dataType, if hs then some r.study else none⟩

/-- Placeholder row (never observed: every group in `groupAgg` is
nonempty by construction). -/
def dummyParted : PartedRow :=
  ⟨⟨0, 0, 0, 0, 0⟩, "", "", "", "", "", "", "", "", .nan, ""⟩

/-- `df.groupby(grouping).agg(...).reset_index()`: one row per distinct
grouping key, aggregating the Value cells of its group. -/
def groupAgg (hs : Bool) (agg : List CellVal → CellVal)
    (rs : List PartedRow) : List PartedRow :=
  (firstDedup (rs.map (groupProj hs))).map (fun k =>
    let grp := rs.filter (fun r => decide (groupProj hs r = k))
    match grp with
    | [] => dummyParted
    | r0 :: _ => { r0 with value := agg (grp.map (·.value)) })

/-- The aggregation core of `AggregateAnnual` after normalization to a
split tidy frame: label rows with the fixed water year, mean the
PER-AVER groups, sum the PER-CUM groups, keep the month-`eom` rows of
INST-VAL series, concatenate, rebuild Pathname (with `e='temp'`, so no
frequency inference), and convert the year labels with
`pd.to_datetime(format='%Y')`.  The water-year integer is carried inside
a `DateTime` as `⟨wy, 0, 0, 0, 0⟩` until the conversion (the code stores
a plain int in the DateTime column at that point). -/
def AggAnnualCore (hs : Bool) (fr : LongFrame) (eom : Nat) :
    Except PdErr TidyTable :=
  let wyRow : PartedRow → PartedRow := fun r =>
    { r with dateTime := ⟨water_year r.dateTime, 0, 0, 0, 0⟩ }
  let df_aver := groupAgg hs meanCells
    ((fr.rows.filter (fun r => decide (r.dataType = "PER-AVER"))).map wyRow)
  let df_cum := groupAgg hs sumCells
    ((fr.rows.filter (fun r => decide (r.dataType = "PER-CUM"))).map wyRow)
  let df_val := ((fr.rows.filter (fun r => decide (r.dataType = "INST-VAL"))).filter
    (fun r => decide (r.dateTime.month = eom))).map wyRow
  let df_annual := df_aver ++ df_cum ++ df_val
  match join_pathnameF { fr with rows := df_annual } none none (some "temp") none with
  | .error e => .error e
  | .ok rows1 =>
    match mapE (fun (r : TidyRow) =>
        match toDatetimeY r.dateTime.year with
        | .error e => .error e
        | .ok d => .ok { r with dateTime := d }) rows1 with
    | .error e => .error e
    | .ok rows2 => .ok ⟨hs, rows2⟩

/-- One row of an annual aggregate in tidy shape (the DateTime column
renamed 'Water Year' and reduced to the year integer). -/
structure AnnualRow where
  waterYear : Int
  pathname : String
  units : String
  dataType : String
  value : CellVal
  study : String
deriving DecidableEq, Repr

/-- Annual aggregate, tidy shape. -/
structure AnnualTidy where
  hasStudy : Bool
  rows : List AnnualRow
deriving DecidableEq, Repr

/-- Annual aggregate, pivoted shape (row index is the water year). -/
structure AnnualPivot where
  levelNames : List String
  colKeys : List (List String)
  years : List Int
  cells : List (List CellVal)
deriving DecidableEq, Repr

/-- Result of `AggregateAnnual`, in the shape of its input. -/
inductive AggOut
  | tidyA (t : AnnualTidy)
  | pivotA (p : AnnualPivot)
deriving DecidableEq, Repr

/-- `df_annual[cols]`: re-select the input's original columns (matched
by level name) on a freshly pivoted annual frame; a missing column
raises `KeyError`. -/
def selectAnnualCols (origNames : List String) (origKeys : List (List String))
    (w : PivotTable) : Except PdErr AnnualPivot :=
  let aligned := origKeys.map (fun k => w.levelNames.map (fun n => getLvl origNames k n))
  if aligned.all (fun k => w.colKeys.contains k) then
    .ok ⟨origNames, origKeys, w.times.map (·.year),
      w.cells.map (fun row => aligned.map (fun k =>
        match w.colKeys.indexOf? k with
        | some j => row.getD j .nan
        | none => .nan))⟩
  else .error (.keyError "column not found")

/-- `stats.AggregateAnnual`: normalize the input to a split tidy frame
(validating its format, raising `RuntimeError` for an unrecognizable
one), aggregate by water year per Data Type, and restore the input's
shape. -/
def AggregateAnnual (df : Table) (eom : Nat) : Except PdErr AggOut :=
  match df with
  | .tidy t =>
    if is_tidyT t then
      match split_pathnameT t with
      | .error e => .error e
      | .ok fr =>
        match AggAnnualCore t.hasStudy fr eom with
        | .error e => .error e
        | .ok ann =>
          .ok (.tidyA ⟨t.hasStudy, ann.rows.map (fun r =>
            ⟨r.dateTime.year, r.pathname, r.units, r.dataType, r.value,
             r.study⟩)⟩)
    else .error (.runtimeError "DataFrame format unrecognizable!")
  | .pivot p =>
    if is_wideP p then
      match wide_to_tidy (.pivot p) with
      | .error e => .error e
      | .ok t1 =>
        match split_pathnameT t1 with
        | .error e => .error e
        | .ok fr =>
          match AggAnnualCore t1.hasStudy fr eom with
          | .error e => .error e
          | .ok ann =>
            match tidy_to_wide (.tidy ann) with
            | .error e => .error e
            | .ok w2 => (selectAnnualCols p.levelNames p.colKeys w2).map .pivotA
    else if is_condenseP p then
      match condense_to_tidy (.pivot p) (some "CALSIM") (some "TEMP") (some "TEMP") with
      | .error e => .error e
      | .ok t1 =>
        match split_pathnameT t1 with
        | .error e => .error e
        | .ok fr =>
          match AggAnnualCore t1.hasStudy fr eom with
          | .error e => .error e
          | .ok ann =>
            match tidy_to_condense (.tidy ann) with
            | .error e => .error e
            | .ok w2 => (selectAnnualCols p.levelNames p.colKeys w2).map .pivotA
    else .error (.runtimeError "DataFrame format unrecognizable!")

/-- A cell of the duck-typed frames reaching the unvalidated statistics
paths: a string, a timestamp, or a float cell. -/
inductive PdVal
  | pstr (s : String)
  | pdt (d : DateTime)
  | pcell (v : CellVal)
deriving DecidableEq, Repr

/-- Strict greater-than used by `rank(ascending=False)`: comparable
values of each dtype; NaN compares false. -/
def cellGt : CellVal → CellVal → Bool
  | .num x, .num y => decide (y < x)
  | _, _ => false

/-- Is this float cell the missing marker? -/
def cellIsNan : CellVal → Bool
  | .nan => true
  | .num _ => false

/-- `rank` comparison over duck-typed cells: strings lexicographically,
timestamps chronologically, floats numerically. -/
def pdGt : PdVal → PdVal → Bool
  | .pstr a, .pstr b => decide (b < a)
  | .pdt a, .pdt b => decide (b.toMinutes < a.toMinutes)
  | .pcell a, .pcell b => cellGt a b
  | _, _ => false

/-- NaN test over duck-typed cells. -/
def pdIsNan : PdVal → Bool
  | .pcell .nan => true
  | _ => false

/-- `Series.rank(method='first', ascending=False)`: the rank of a
non-NaN entry is 1 + (number of strictly greater entries) + (number of
equal entries appearing earlier); NaN entries receive a NaN rank. -/
def rankFirstDescBy (gt : α → α → Bool) (isN : α → Bool)
    (eqb : α → α → Bool) (col : List α) : List CellVal :=
  (List.range col.length).map (fun i =>
    match col.get? i with
    | none => .nan
    | some v =>
      if isN v then .nan
      else .num (1 + ((col.countP (fun w => !isN w && gt w v) : Nat) : Rat)
        + (((col.take i).countP (fun w => eqb w v) : Nat) : Rat)))

/-- Maximum of the non-NaN entries of a float column (`Series.max()`),
NaN when all entries are NaN. -/
def colMax : List CellVal → CellVal
  | [] => .nan
  | v :: l =>
    match colMax l with
    | .nan => v
    | .num m =>
      match v with
      | .nan => .num m
      | .num q => .num (max q m)

/-- Exceedance probabilities of one column
(`df.rank(method='first', ascending=False) / (df.rank(...).max() + 1)`
in `MonthlyExceedence` / `AnnualExceedence`). -/
def excdProbsBy (gt : α → α → Bool) (isN : α → Bool)
    (eqb : α → α → Bool) (col : List α) : List CellVal :=
  let ranks := rankFirstDescBy gt isN eqb col
  match colMax ranks with
  | .nan => ranks.map (fun _ => .nan)
  | .num m => ranks.map (fun r =>
      match r with
      | .nan => .nan
      | .num q => .num (q / (m + 1)))

/-- `excdProbsBy` at float columns: the probability column
`MonthlyExceedence` computes for one series. -/
def excdProbs (col : List CellVal) : List CellVal :=
  excdProbsBy cellGt cellIsNan (fun a b => a == b) col

/-- `fillna(method='bfill')` on one column: each missing entry takes the
next non-missing value below it. -/
def bfillCol (isN : α → Bool) : List α → List α
  | [] => []
  | a :: l =>
    (if isN a then
      match l.find? (fun x => !isN x) with
      | some v => v
      | none => a
     else a) :: bfillCol isN l

/-- `fillna(method='ffill')` on one column: each missing entry takes the
last non-missing value above it (`carry`). -/
def ffillCol (isN : α → Bool) (carry : Option α) : List α → List α
  | [] => []
  | a :: l =>
    if isN a then
      (match carry with | some v => v | none => a) :: ffillCol isN carry l
    else a :: ffillCol isN (some a) l

/-- Insertion sort of rationals, ascending. -/
def insertRat (x : Rat) : List Rat → List Rat
  | [] => [x]
  | a :: l => if x ≤ a then x :: a :: l else a :: insertRat x l

/-- Sorted list of rationals. -/
def sortRats : List Rat → List Rat
  | [] => []
  | a :: l => insertRat a (sortRats l)

/-- Column-major exceedance table: the shared probability index and one
value column per series. -/
structure ExceedG (α : Type) where
  probs : List CellVal
  cols : List (List α)
deriving DecidableEq, Repr

/-- The series-concatenation tail of `MonthlyExceedence` /
`AnnualExceedence`: per column, a Series of the original values indexed
by that column's exceedance probabilities; `pd.concat(axis=1)` of an
empty list raises `ValueError('No objects to concatenate')`, keeps
identical indexes as-is, and otherwise outer-joins them — which
reindexes each series and raises
`ValueError('cannot reindex from a duplicate axis')` when a series'
index is non-unique (e.g. two NaN ranks in one column); the join is
modelled as the sorted union, looked up by exact probability, NaN rows
last; finally `fillna(bfill)` then `fillna(ffill)` per column. -/
def exceedCols (gt : α → α → Bool) (isN : α → Bool) (eqb : α → α → Bool)
    (nanV : α) (cols : List (List α)) : Except PdErr (ExceedG α) :=
  if cols.isEmpty then .error (.valueError "No objects to concatenate")
  else
    let probs := cols.map (excdProbsBy gt isN eqb)
    let same := probs.all (fun pr => pr = probs.headD [])
    if same then
      .ok ⟨probs.headD [],
        cols.map (fun col => ffillCol isN none (bfillCol isN col))⟩
    else if !(probs.all (fun pr => nodupB pr)) then
      .error (.valueError "cannot reindex from a duplicate axis")
    else
      let allp := probs.foldr (· ++ ·) []
      let idx := (sortRats (firstDedup (numsOf allp))).map CellVal.num
        ++ (if allp.contains CellVal.nan then [CellVal.nan] else [])
      let cols2 := (List.range cols.length).map (fun j => idx.map (fun q =>
        match q with
        | .nan => nanV
        | .num _ =>
          match (probs.getD j []).indexOf? q with
          | some i => (cols.getD j []).getD i nanV
          | none => nanV))
      .ok ⟨idx, cols2.map (fun col => ffillCol isN none (bfillCol isN col))⟩

/-- Column `j` of a row-major cell grid. -/
def colAt (cells : List (List CellVal)) (j : Nat) : List CellVal :=
  cells.map (fun row => row.getD j .nan)

/-- Exceedance table of a wide/condense frame, with its column labels. -/
structure WideExceed where
  levelNames : List String
  colKeys : List (List String)
  probs : List CellVal
  cols : List (List CellVal)
deriving DecidableEq, Repr

/-- Exceedance table of a flat-column (tidy-shaped) frame that reached
the statistics unvalidated. -/
structure FlatExceed where
  colNames : List String
  probs : List CellVal
  cols : List (List PdVal)
deriving DecidableEq, Repr

/-- Result of `MonthlyExceedence` / `AnnualExceedence`, by input shape. -/
inductive MEOut
  | tidyE (rows : List (CellVal × List String × CellVal))
  | pivotE (e : WideExceed)
  | flatE (e : FlatExceed)
deriving DecidableEq, Repr

/-- Exceedance computation over a pivoted frame: `df_copy[col]` on a
duplicate column label yields a 2-D block, so building the per-column
Series raises `ValueError`; otherwise rank, divide and concatenate. -/
def exceedOfPivotCells (colKeys : List (List String))
    (cells : List (List CellVal)) : Except PdErr (ExceedG CellVal) :=
  if !nodupB colKeys then .error (.valueError "Data must be 1-dimensional")
  else
    exceedCols cellGt cellIsNan (fun a b => a == b) .nan
      ((List.range colKeys.length).map (colAt cells))

/-- The columns of a tidy-shaped frame as duck-typed value lists, with
their names. -/
def tidyColumns (t : TidyTable) : List String × List (List PdVal) :=
  (["DateTime", "Pathname", "Units", "Data Type", "Value"]
     ++ (if t.hasStudy then ["Study"] else []),
   [t.rows.map (fun r => .pdt r.dateTime),
    t.rows.map (fun r => .pstr r.pathname),
    t.rows.map (fun r => .pstr r.units),
    t.rows.map (fun r => .pstr r.dataType),
    t.rows.map (fun r => .pcell r.value)]
     ++ (if t.hasStudy then [t.rows.map (fun r => PdVal.pstr r.study)] else []))

/-- `stack` of an exceedance frame back to tidy shape (the default
`dropna=True` discards NaN cells): rows of (probability, column key,
value) in row-major order. -/
def stackExceed (keys : List (List String)) (probs : List CellVal)
    (cols : List (List CellVal)) : List (CellVal × List String × CellVal) :=
  (List.range probs.length).flatMap (fun i =>
    (List.range keys.length).filterMap (fun j =>
      match (cols.getD j []).getD i .nan with
      | .nan => none
      | v => some (probs.getD i .nan, keys.getD j [], v)))

/-- `stats.MonthlyExceedence`: a valid tidy input is pivoted to wide,
ranked, and stacked back; any other input — pivoted or not, valid or
not — is ranked as-is (the function checks only `is_tidy`). -/
def MonthlyExceedence (df : Table) : Except PdErr MEOut :=
  match df with
  | .tidy t =>
    if is_tidyT t then
      match tidy_to_wide (.tidy t) with
      | .error e => .error e
      | .ok w =>
        match exceedOfPivotCells w.colKeys w.cells with
        | .error e => .error e
        | .ok ex => .ok (.tidyE (stackExceed w.colKeys ex.probs ex.cols))
    else
      let tc := tidyColumns t
      match exceedCols pdGt pdIsNan (fun a b => a == b) (.pcell .nan) tc.2 with
      | .error e => .error e
      | .ok ex => .ok (.flatE ⟨tc.1, ex.probs, ex.cols⟩)
  | .pivot p =>
    match exceedOfPivotCells p.colKeys p.cells with
    | .error e => .error e
    | .ok ex => .ok (.pivotE ⟨p.levelNames, p.colKeys, ex.probs, ex.cols⟩)

/-- `stats.AnnualExceedence`: wrap a valid tidy input to wide, aggregate
annually (which validates the format), then rank the annual frame. -/
def AnnualExceedence (df : Table) (eom : Nat) : Except PdErr MEOut :=
  match df with
  | .tidy t =>
    if is_tidyT t then
      match tidy_to_wide (.tidy t) with
      | .error e => .error e
      | .ok w =>
        match AggregateAnnual (.pivot w) eom with
        | .error e => .error e
        | .ok (.pivotA ap) =>
          match exceedOfPivotCells ap.colKeys ap.cells with
          | .error e => .error e
          | .ok ex => .ok (.tidyE (stackExceed ap.colKeys ex.probs ex.cols))
        | .ok (.tidyA _) =>
          -- unreachable: `AggregateAnnual` returns a pivoted frame for
          -- the pivoted input constructed just above
          .error (.typeError "unexpected tidy aggregate")
      else
        match AggregateAnnual df eom with
        | .error e => .error e
        | .ok (.pivotA ap) =>
          match exceedOfPivotCells ap.colKeys ap.cells with
          | .error e => .error e
          | .ok ex => .ok (.pivotE ⟨ap.levelNames, ap.colKeys, ex.probs, ex.cols⟩)
        | .ok (.tidyA _) =>
          -- unreachable: `AggregateAnnual` raises on a tidy-shaped frame
          -- that fails `is_tidy`
          .error (.typeError "unexpected tidy aggregate")
  | .pivot _ =>
    match AggregateAnnual df eom with
    | .error e => .error e
    | .ok (.pivotA ap) =>
      match exceedOfPivotCells ap.colKeys ap.cells with
      | .error e => .error e
      | .ok ex => .ok (.pivotE ⟨ap.levelNames, ap.colKeys, ex.probs, ex.cols⟩)
    | .ok (.tidyA _) =>
      -- unreachable: pivoted input yields a pivoted aggregate
      .error (.typeError "unexpected tidy aggregate")

/-- A pandas Series keyed by column labels (the result of `.mean()` on a
pivoted frame). -/
structure SeriesKV where
  levelNames : List String
  keys : List (List String)
  vals : List CellVal
deriving DecidableEq, Repr

/-- Result of `PeriodMean`: a raw Series for pivoted input, the
`reset_index` frame of that Series for tidy input, or the numeric-column
means when `.mean()` is taken over an annual tidy frame. -/
inductive PMOut
  | series (s : SeriesKV)
  | frame (s : SeriesKV)
  | scalars (wy : CellVal) (v : CellVal)
deriving DecidableEq, Repr

/-- Per-column means of an annual pivoted frame (`df.mean()`). -/
def meansOfAnnual (ap : AnnualPivot) : List CellVal :=
  (List.range ap.colKeys.length).map (fun j => meanCells (colAt ap.cells j))

/-- `stats.PeriodMean`: pivot a valid tidy input to wide, aggregate
annually (validating the format), take per-series means across water
years, and reset the index for tidy input. -/
def PeriodMean (df : Table) (eom : Nat) : Except PdErr PMOut :=
  match df with
  | .tidy t =>
    if is_tidyT t then
      match tidy_to_wide (.tidy t) with
      | .error e => .error e
      | .ok w =>
        match AggregateAnnual (.pivot w) eom with
        | .error e => .error e
        | .ok (.pivotA ap) => .ok (.frame ⟨ap.levelNames, ap.colKeys, meansOfAnnual ap⟩)
        | .ok (.tidyA at1) =>
          -- unreachable: pivoted input yields a pivoted aggregate
          .ok (.scalars (meanCells (at1.rows.map (fun r => .num r.waterYear)))
            (meanCells (at1.rows.map (·.value))))
    else
      match AggregateAnnual df eom with
      | .error e => .error e
      | .ok (.pivotA ap) => .ok (.series ⟨ap.levelNames, ap.colKeys, meansOfAnnual ap⟩)
      | .ok (.tidyA at1) =>
        .ok (.scalars (meanCells (at1.rows.map (fun r => .num r.waterYear)))
          (meanCells (at1.rows.map (·.value))))
  | .pivot _ =>
    match AggregateAnnual df eom with
    | .error e => .error e
    | .ok (.pivotA ap) => .ok (.series ⟨ap.levelNames, ap.colKeys, meansOfAnnual ap⟩)
    | .ok (.tidyA at1) =>
      .ok (.scalars (meanCells (at1.rows.map (fun r => .num r.waterYear)))
        (meanCells (at1.rows.map (·.value))))

/-- Insertion sort of naturals, ascending (pandas `groupby` sorts its
keys). -/
def insertNat (x : Nat) : List Nat → List Nat
  | [] => [x]
  | a :: l => if x ≤ a then x :: a :: l else a :: insertNat x l

/-- Sorted list of naturals. -/
def sortNats : List Nat → List Nat
  | [] => []
  | a :: l => insertNat a (sortNats l)

/-- A monthly-mean frame: rows labelled by month abbreviation in
water-year order. -/
structure MonthFrame where
  levelNames : List String
  colKeys : List (List String)
  months : List String
  cells : List (List CellVal)
deriving DecidableEq, Repr

/-- Result of `MonthlyMean`, by input shape. -/
inductive MMOut
  | pivotM (m : MonthFrame)
  | tidyM (rows : List (String × List String × CellVal))
deriving DecidableEq, Repr

/-- `df.groupby(df.index.month).mean()` then re-labelling by
`datetime(2000, month, 1).strftime('%b')` and `reindex(water_months)`:
on a zero-column frame with a nonempty index, `apply(axis=1)` takes the
empty-result path and the index assignment raises a length-mismatch
`ValueError`; a month outside 1..12 makes the `datetime` call raise. -/
def monthlyOfPivot (p : PivotTable) : Except PdErr MonthFrame :=
  let ms := sortNats (firstDedup (p.times.map (·.month)))
  if p.colKeys.length = 0 && !ms.isEmpty then
    .error (.valueError "Length mismatch: Expected axis has 0 elements")
  else if !(ms.all (fun m => decide (1 ≤ m) && decide (m ≤ 12))) then
    .error (.valueError "month must be in 1..12")
  else
    let labels := ms.map monthAbbrev
    let meanRow := fun (m : Nat) => (List.range p.colKeys.length).map (fun j =>
      meanCells (((p.times.zip p.cells).filter
        (fun tc => decide (tc.1.month = m))).map (fun tc => tc.2.getD j .nan)))
    let grid := water_months.map (fun lbl =>
      match labels.indexOf? lbl with
      | some i => meanRow (ms.getD i 0)
      | none => (List.range p.colKeys.length).map (fun _ => CellVal.nan))
    .ok ⟨p.levelNames, p.colKeys, water_months, grid⟩

/-- `stack` of a monthly-mean frame back to tidy shape, dropping NaN
cells (`stack`'s default `dropna=True`). -/
def stackMonthly (m : MonthFrame) : List (String × List String × CellVal) :=
  (List.range m.months.length).flatMap (fun i =>
    (List.range m.colKeys.length).filterMap (fun j =>
      match (m.cells.getD i []).getD j .nan with
      | .nan => none
      | v => some (m.months.getD i "", m.colKeys.getD j [], v)))

/-- `stats.MonthlyMean`: a valid tidy input is pivoted to wide, averaged
by calendar month, reindexed to water-year month order, and stacked
back; a tidy-shaped input failing `is_tidy` reaches
`df.index.month` on a RangeIndex and raises `AttributeError`; a pivoted input — valid or not — is
averaged as-is without any format validation. -/
def MonthlyMean (df : Table) : Except PdErr MMOut :=
  match df with
  | .tidy t =>
    if is_tidyT t then
      match tidy_to_wide (.tidy t) with
      | .error e => .error e
      | .ok w =>
        match monthlyOfPivot w with
        | .error e => .error e
        | .ok m => .ok (.tidyM (stackMonthly m))
    else
      .error (.attributeError "'RangeIndex' object has no attribute 'month'")
  | .pivot p =>
    match monthlyOfPivot p with
    | .error e => .error e
    | .ok m => .ok (.pivotM m)

/-- A heap object of the transform pipelines: any DataFrame value the
Python code holds (tidy, pivoted, or the intermediate long frame). -/
inductive Obj
  | tidyO (t : TidyTable)
  | pivotO (p : PivotTable)
  | frameO (fr : LongFrame)
  | noneO
deriving DecidableEq, Repr

/-- `tidy_to_wide` with the Python object store explicit: the input is
read at index `r`, `df.copy()` allocates a fresh object, every
`inplace=True` mutation (`split_pathname`, `set_index`, `reset_index`)
targets that copy, and `unstack` rebinds `df_out` to a further fresh
object whose index is returned. -/
def tidy_to_wideSt (store : List Obj) (r : Nat) :
    List Obj × Except PdErr Nat :=
  match store.getD r .noneO with
  | .tidyO t =>
    if !is_tidyT t then
      (store, .error (.typeError "Cannot transform DataFrame from tidy format to wide format."))
    else
      let i := store.length
      let st1 := store ++ [.tidyO t]
      match split_pathnameT t with
      | .error e => (st1, .error e)
      | .ok fr =>
        let st2 := st1.set i (.frameO fr)
        match pivotFrame (wideKeyOf t.hasStudy)
            ((if t.hasStudy then ["Study"] else []) ++ wideLvls) fr.rows with
        | .error e => (st2, .error e)
        | .ok w => (st2 ++ [.pivotO w], .ok st2.length)
  | _ =>
    (store, .error (.typeError "Cannot transform DataFrame from tidy format to wide format."))

/-- `wide_to_tidy` over the object store: copy, `fillna` in place on the
copy, `stack`/`reset_index` rebind to a fresh frame, then
`join_pathname(inplace=True)` and `replace(inplace=True)` mutate that
fresh frame, whose index is returned. -/
def wide_to_tidySt (store : List Obj) (r : Nat) :
    List Obj × Except PdErr Nat :=
  match store.getD r .noneO with
  | .pivotO p =>
    if !is_wideP p then
      (store, .error (.typeError "Cannot transform DataFrame from wide format to tidy format."))
    else
      let i := store.length
      let st1 := store ++ [.pivotO p]
      let st2 := st1.set i (.pivotO (fillnaGrid p))
      let hs := p.levelNames.contains "Study"
      let fr : LongFrame :=
        { hasA := p.levelNames.contains "Part A"
          hasB := p.levelNames.contains "Part B"
          hasC := p.levelNames.contains "Part C"
          hasE := p.levelNames.contains "Part E"
          hasF := p.levelNames.contains "Part F"
          hasStudy := hs
          rows := stackRows (fillnaGrid p) }
      let j := st2.length
      let st3 := st2 ++ [.frameO fr]
      match join_pathnameF fr none none none none with
      | .error e => (st3, .error e)
      | .ok trows =>
        let st4 := st3.set j (.tidyO ⟨hs, trows⟩)
        let rows2 := trows.map (fun row =>
          { row with value := row.value.replaceWithNan (-901) })
        (st4.set j (.tidyO ⟨hs, rows2⟩), .ok j)
  | _ =>
    (store, .error (.typeError "Cannot transform DataFrame from wide format to tidy format."))

/-- `tidy_to_condense` over the object store: copy, in-place split and
label juggling on the copy, `unstack` rebinds to the fresh result. -/
def tidy_to_condenseSt (store : List Obj) (r : Nat) :
    List Obj × Except PdErr Nat :=
  match store.getD r .noneO with
  | .tidyO t =>
    if !is_tidyT t then
      (store, .error (.typeError "Cannot transform DataFrame from tidy format to condense format."))
    else
      let i := store.length
      let st1 := store ++ [.tidyO t]
      match tidy_to_condense (.tidy t) with
      | .error e =>
        match split_pathnameT t with
        | .error _ => (st1, .error e)
        | .ok fr => (st1.set i (.frameO fr), .error e)
      | .ok w =>
        match split_pathnameT t with
        | .error _ => (st1, .ok st1.length)
        | .ok fr => ((st1.set i (.frameO fr)) ++ [.pivotO w], .ok (st1.length))
  | _ =>
    (store, .error (.typeError "Cannot transform DataFrame from tidy format to condense format."))

/-- `condense_to_tidy` over the object store: copy, `fillna` in place on
the copy, `stack` rebinds to a fresh frame that is then mutated in place
by the Units-and-Type split, `join_pathname` and `replace`. -/
def condense_to_tidySt (store : List Obj) (r : Nat)
    (a c f : Option String) : List Obj × Except PdErr Nat :=
  match store.getD r .noneO with
  | .pivotO p =>
    if !is_condenseP p then
      (store, .error (.typeError "Cannot transform DataFrame from condense format to tidy format."))
    else
      let i := store.length
      let st1 := store ++ [.pivotO p]
      let st2 := st1.set i (.pivotO (fillnaGrid p))
      let j := st2.length
      let st3 := st2 ++ [.frameO
        { hasA := p.levelNames.contains "Part A"
          hasB := p.levelNames.contains "Part B"
          hasC := p.levelNames.contains "Part C"
          hasE := p.levelNames.contains "Part E"
          hasF := p.levelNames.contains "Part F"
          hasStudy := p.levelNames.contains "Study"
          rows := stackRows (fillnaGrid p) }]
      match condense_to_tidy (.pivot p) a c f with
      | .error e => (st3, .error e)
      | .ok t' => (st3.set j (.tidyO t'), .ok j)
  | _ =>
    (store, .error (.typeError "Cannot transform DataFrame from condense format to tidy format."))

instance exceptDecEq {ε α : Type} [DecidableEq ε] [DecidableEq α] :
    DecidableEq (Except ε α)
  | .error a, .error b =>
    if h : a = b then .isTrue (by rw [h]) else .isFalse (by simp [h])
  | .error _, .ok _ => .isFalse (by simp)
  | .ok _, .error _ => .isFalse (by simp)
  | .ok a, .ok b =>
    if h : a = b then .isTrue (by rw [h]) else .isFalse (by simp [h])

theorem mapE_ok_forall {α β : Type} {f : α → Except PdErr β} {P : β → Prop} :
    ∀ {l : List α} {l' : List β}, mapE f l = .ok l' →
      (∀ a ∈ l, ∀ b, f a = .ok b → P b) → ∀ b ∈ l', P b := by
  intro l
  induction l with
  | nil =>
    intro l' h hf b hb
    simp only [mapE] at h
    cases h
    simp at hb
  | cons a l ih =>
    intro l' h hf b hb
    simp only [mapE] at h
    cases hfa : f a with
    | error e => rw [hfa] at h; cases h
    | ok b0 =>
      rw [hfa] at h
      cases hml : mapE f l with
      | error e => rw [hml] at h; cases h
      | ok bs =>
        rw [hml] at h
        cases h
        rcases List.mem_cons.mp hb with hb | hb
        · subst hb; exact hf a (by simp) _ hfa
        · exact ih hml (fun x hx => hf x (by simp [hx])) b hb

theorem splitRow_dataType {r : TidyRow} {pr : PartedRow}
    (h : splitRow r = .ok pr) : pr.dataType = r.dataType := by
  unfold splitRow at h
  split at h
  · cases h; rfl
  · cases h

theorem split_pathnameT_ok {t : TidyTable} {fr : LongFrame}
    (h : split_pathnameT t = .ok fr) : mapE splitRow t.rows = .ok fr.rows := by
  unfold split_pathnameT at h
  cases hr : t.rows with
  | nil =>
    rw [hr] at h
    exact absurd h (by simp [splitRows])
  | cons a l =>
    rw [hr] at h
    rw [show splitRows (a :: l) = mapE splitRow (a :: l) from rfl] at h
    cases hm : mapE splitRow (a :: l) with
    | error e => rw [hm] at h; cases h
    | ok prs => rw [hm] at h; cases h; rfl

theorem AggAnnualCore_eom_indep (hs : Bool) (fr : LongFrame) (e1 e2 : Nat)
    (h : fr.rows.filter (fun r => decide (r.dataType = "INST-VAL")) = []) :
    AggAnnualCore hs fr e1 = AggAnnualCore hs fr e2 := by
  simp only [AggAnnualCore, h, List.filter_nil, List.map_nil, List.append_nil]

/-- Claim C3 (amended): `AggregateAnnual` groups by a fixed Oct–Sep
water year regardless of `eom`; the `eom` argument only selects which
month's observation is kept for INST-VAL series, so on a tidy input with
no INST-VAL rows the result does not depend on `eom` at all. -/
theorem C3_eom_independent (t : TidyTable) (e1 e2 : Nat)
    (h : ∀ r ∈ t.rows, r.dataType ≠ "INST-VAL") :
    AggregateAnnual (.tidy t) e1 = AggregateAnnual (.tidy t) e2 := by
  simp only [AggregateAnnual]
  cases ht : is_tidyT t with
  | false => simp
  | true =>
    simp only [if_pos rfl]
    cases hsp : split_pathnameT t with
    | error e => rfl
    | ok fr =>
      have hfr : fr.rows.filter (fun r => decide (r.dataType = "INST-VAL")) = [] := by
        rw [List.filter_eq_nil_iff]
        intro r hr
        have : r.dataType ≠ "INST-VAL" := by
          refine mapE_ok_forall (P := fun pr => pr.dataType ≠ "INST-VAL")
            (split_pathnameT_ok hsp) ?_ r hr
          intro a ha b hb
          rw [splitRow_dataType hb]
          exact h a ha
        simpa using this
      simp [AggAnnualCore_eom_indep t.hasStudy fr e1 e2 hfr]

/-- Input for the C3 counterexample: a single PER-AVER observation dated
2020-05-31. -/
def c3_input : TidyTable :=
  ⟨false, [⟨⟨2020, 5, 31, 0, 0⟩, "/CALSIM/LOC1/FLOW//1MON/F1/", "CFS",
    "PER-AVER", .num 10, ""⟩]⟩

/-- Modelled from the claim's words, for comparison with the code: the
water year a timestamp belongs to is the one ending at the next
occurrence of month `eom`. -/
def specWaterYear (eom : Nat) (d : DateTime) : Int :=
  if d.month ≤ eom then d.year else d.year + 1

/-- The water-year labels of an aggregation result (empty for errors). -/
def aggYears : Except PdErr AggOut → List Int
  | .ok (.tidyA t) => t.rows.map (·.waterYear)
  | .ok (.pivotA p) => p.years
  | .error _ => []

/-- Claim C3, counterexample: with `eom = 3` the claim puts the May-2020
observation in the water year ending March 2021, but `AggregateAnnual`
labels it 2020 — the fixed Oct–Sep water year, independent of `eom`. -/
theorem C3_counterexample :
    (AggregateAnnual (.tidy c3_input) 3).isOk = true
    ∧ aggYears (AggregateAnnual (.tidy c3_input) 3) = [2020]
    ∧ specWaterYear 3 ⟨2020, 5, 31, 0, 0⟩ = 2021
    ∧ (2020 : Int) ≠ 2021 := by
  refine ⟨by decide, by decide, by decide, by decide⟩

/-- Witness for `C3_eom_independent` at a concrete table. -/
theorem C3_eom_independent_witness :
    AggregateAnnual (.tidy c3_input) 3 = AggregateAnnual (.tidy c3_input) 9 :=
  C3_eom_independent c3_input 3 9 (by decide)

/-- `pd.concat` of a single series keeps its index: no reindexing, no
error. -/
theorem exceedCols_singleton {α : Type} (gt : α → α → Bool) (isN : α → Bool)
    (eqb : α → α → Bool) (nanV : α) (c : List α) :
    exceedCols gt isN eqb nanV [c]
      = .ok ⟨excdProbsBy gt isN eqb c,
          [ffillCol isN none (bfillCol isN c)]⟩ := by
  simp [exceedCols]

/-- Every error of the concatenation stage is a pandas `ValueError`. -/
theorem exceedCols_error_valueError {α : Type} {gt : α → α → Bool}
    {isN : α → Bool} {eqb : α → α → Bool} {nanV : α} {cols : List (List α)}
    {e : PdErr} (h : exceedCols gt isN eqb nanV cols = .error e) :
    ∃ m, e = PdErr.valueError m := by
  unfold exceedCols at h
  split at h
  · rw [Except.error.injEq] at h
    exact ⟨_, h.symm⟩
  · dsimp only at h
    split at h
    · exact absurd h (by simp)
    · split at h
      · rw [Except.error.injEq] at h
        exact ⟨_, h.symm⟩
      · exact absurd h (by simp)

/-- Every error of the pivoted exceedance path is a pandas
`ValueError`. -/
theorem exceedOfPivotCells_error_valueError {ck : List (List String)}
    {cs : List (List CellVal)} {e : PdErr}
    (h : exceedOfPivotCells ck cs = .error e) :
    ∃ m, e = PdErr.valueError m := by
  unfold exceedOfPivotCells at h
  split at h
  · rw [Except.error.injEq] at h
    exact ⟨_, h.symm⟩
  · exact exceedCols_error_valueError h

/-- Every error of the monthly-mean grouping is a pandas `ValueError`. -/
theorem monthlyOfPivot_error_valueError {p : PivotTable} {e : PdErr}
    (h : monthlyOfPivot p = .error e) : ∃ m, e = PdErr.valueError m := by
  unfold monthlyOfPivot at h
  dsimp only at h
  split at h
  · rw [Except.error.injEq] at h
    exact ⟨_, h.symm⟩
  · split at h
    · rw [Except.error.injEq] at h
      exact ⟨_, h.symm⟩
    · exact absurd h (by simp)

/-- Unrecognized-format input for C4: a pivoted frame whose level-name
set (missing 'Data Type') matches none of the three validators. -/
def c4_input : PivotTable :=
  ⟨["Part A", "Part B", "Part C", "Part E", "Part F", "Units"],
   [["CALSIM", "LOC1", "FLOW", "1MON", "F1", "CFS"]],
   [⟨2020, 1, 31, 0, 0⟩, ⟨2020, 2, 29, 0, 0⟩, ⟨2020, 3, 31, 0, 0⟩],
   [[.num 30], [.num 20], [.num 10]]⟩

/-- `MonthlyExceedence` succeeds on the concrete unrecognized
single-column frame (one column: `pd.concat` keeps its index as-is). -/
theorem MonthlyExceedence_c4_ok :
    (MonthlyExceedence (.pivot c4_input)).isOk = true := by
  have hx : exceedOfPivotCells c4_input.colKeys c4_input.cells
      = exceedCols cellGt cellIsNan (fun a b => a == b) CellVal.nan
          [colAt c4_input.cells 0] := by
    unfold exceedOfPivotCells
    rw [if_neg (by decide)]
    rfl
  simp only [MonthlyExceedence]
  rw [hx, exceedCols_singleton]
  rfl

/-- Claim C4, counterexample: an input satisfying none of the three
recognized formats that `MonthlyExceedence` and `MonthlyMean` process
successfully instead of raising `UnrecognizedFormatError`. -/
theorem C4_counterexample :
    is_tidy (.pivot c4_input) = false
    ∧ is_wide (.pivot c4_input) = false
    ∧ is_condense (.pivot c4_input) = false
    ∧ (MonthlyExceedence (.pivot c4_input)).isOk = true
    ∧ (MonthlyMean (.pivot c4_input)).isOk = true := by
  refine ⟨by decide, by decide, by decide, MonthlyExceedence_c4_ok, by decide⟩

/-- Claim C4 (amended): `AggregateAnnual` — and `PeriodMean` and
`AnnualExceedence`, which delegate to it — raise the fatal
`RuntimeError('DataFrame format unrecognizable!')` on every input that
satisfies none of the three formats; `MonthlyExceedence` and
`MonthlyMean` check only `is_tidy`, so a pivoted input matching no
recognized format is never met with a format error — any failure on the
pivoted path is an unrelated pandas `ValueError` — and the concrete
unrecognized frame is processed successfully by both. -/
theorem C4_unrecognized_behavior :
    (∀ (df : Table) (eom : Nat), is_tidy df = false → is_wide df = false →
      is_condense df = false →
      AggregateAnnual df eom
          = .error (.runtimeError "DataFrame format unrecognizable!")
        ∧ PeriodMean df eom
          = .error (.runtimeError "DataFrame format unrecognizable!")
        ∧ AnnualExceedence df eom
          = .error (.runtimeError "DataFrame format unrecognizable!"))
    ∧ (∀ (p : PivotTable) (msg : String),
        MonthlyExceedence (.pivot p) ≠ .error (.runtimeError msg))
    ∧ (∀ (p : PivotTable) (msg : String),
        MonthlyMean (.pivot p) ≠ .error (.runtimeError msg))
    ∧ (MonthlyExceedence (.pivot c4_input)).isOk = true
    ∧ (MonthlyMean (.pivot c4_input)).isOk = true := by
  refine ⟨?_, ?_, ?_, MonthlyExceedence_c4_ok, by decide⟩
  · intro df eom h1 h2 h3
    cases df with
    | tidy t =>
      simp only [is_tidy] at h1
      refine ⟨by simp [AggregateAnnual, h1], ?_, ?_⟩
      · simp [PeriodMean, h1, AggregateAnnual]
      · simp [AnnualExceedence, h1, AggregateAnnual]
    | pivot p =>
      simp only [is_wide] at h2
      simp only [is_condense] at h3
      refine ⟨by simp [AggregateAnnual, h2, h3], ?_, ?_⟩
      · simp [PeriodMean, AggregateAnnual, h2, h3]
      · simp [AnnualExceedence, AggregateAnnual, h2, h3]
  · intro p msg
    simp only [MonthlyExceedence]
    cases hx : exceedOfPivotCells p.colKeys p.cells with
    | error e =>
      obtain ⟨m, rfl⟩ := exceedOfPivotCells_error_valueError hx
      simp
    | ok ex => simp
  · intro p msg
    simp only [MonthlyMean]
    cases hx : monthlyOfPivot p with
    | error e =>
      obtain ⟨m, rfl⟩ := monthlyOfPivot_error_valueError hx
      simp
    | ok m => simp

/-- Witness for `C4_unrecognized_behavior` at the concrete unrecognized
frame. -/
theorem C4_unrecognized_behavior_witness :
    AggregateAnnual (.pivot c4_input) 9
        = .error (.runtimeError "DataFrame format unrecognizable!")
      ∧ MonthlyExceedence (.pivot c4_input)
        ≠ .error (.runtimeError "DataFrame format unrecognizable!") := by
  refine ⟨(C4_unrecognized_behavior.1 (.pivot c4_input) 9
      (by decide) (by decide) (by decide)).1,
    C4_unrecognized_behavior.2.1 c4_input "DataFrame format unrecognizable!"⟩

/-- Frame for the C5 counterexample: every part column present, regular
2-day timestamp spacing. -/
def c5_frame : LongFrame :=
  ⟨true, true, true, true, true, false,
   [⟨⟨2020, 1, 1, 0, 0⟩, "CALSIM", "LOC1", "FLOW", "2DAY", "F1", "CFS",
     "PER-AVER", "", .num 1, ""⟩,
    ⟨⟨2020, 1, 3, 0, 0⟩, "CALSIM", "LOC1", "FLOW", "2DAY", "F1", "CFS",
     "PER-AVER", "", .num 2, ""⟩,
    ⟨⟨2020, 1, 5, 0, 0⟩, "CALSIM", "LOC1", "FLOW", "2DAY", "F1", "CFS",
     "PER-AVER", "", .num 3, ""⟩]⟩

/-- Claim C5, counterexample: a regular spacing outside the four known
ones (2-day, inferred as `'2D'`) makes key encoding raise
`KeyError('2D')` at the `t_steps_inv` lookup — even though the Interval
part is present as a column — rather than leaving the part unresolved
or raising the missing-part error. -/
theorem C5_counterexample :
    inferFreq (firstDedup (c5_frame.rows.map (·.dateTime))) = .ok (some "2D")
    ∧ t_steps_inv.lookup "2D" = none
    ∧ join_pathnameF c5_frame none none none none = .error (.keyError "2D") := by
  refine ⟨by decide, by decide, by decide⟩

/-- Claim C5 (amended): with the Interval argument not supplied, the
codec maps exactly the four known pandas spacings to their interval
tokens through `t_steps_inv`; an uninferable spacing leaves the part
unresolved, so encoding fails with the `ValueError` naming 'Part E'
exactly when that part is not otherwise available; but a regular spacing
that pandas recognizes beyond the four known ones raises `KeyError`
instead — a failure mode the original claim excludes — and it does so
whether or not the Interval is otherwise supplied as a column. -/
theorem C5_interval_inference :
    t_steps_inv = [("M", "1MON"), ("D", "1DAY"), ("H", "1HOUR"), ("6H", "6HOUR")]
    ∧ (∀ (fr : LongFrame) (a c f : Option String) (s : String),
        inferFreq (firstDedup (fr.rows.map (·.dateTime))) = .ok (some s) →
        t_steps_inv.lookup s = none →
        join_pathnameF fr a c none f = .error (.keyError s))
    ∧ (∀ (fr : LongFrame) (a c f : Option String),
        inferFreq (firstDedup (fr.rows.map (·.dateTime))) = .ok none →
        fr.hasA = true → fr.hasC = true → fr.hasF = true → fr.hasE = false →
        join_pathnameF fr a c none f
          = .error (.valueError
              "Values required for the following columns: Part E."))
    ∧ (∀ (fr : LongFrame) (a c f : Option String) (s tok : String),
        inferFreq (firstDedup (fr.rows.map (·.dateTime))) = .ok (some s) →
        t_steps_inv.lookup s = some tok → tok.isEmpty = false →
        fr.hasA = true → fr.hasB = true → fr.hasC = true → fr.hasF = true →
        fr.hasE = false →
        join_pathnameF fr a c none f
          = .ok (fr.rows.map (fun r =>
              { dateTime := r.dateTime
                pathname := mkPathname r.partA r.partB r.partC tok r.partF
                units := r.units
                dataType := r.dataType
                value := r.value
                study := r.study }))) := by
  refine ⟨by decide, ?_, ?_, ?_⟩
  · intro fr a c f s hinf hlook
    simp [join_pathnameF, truthy, hinf, hlook]
  · intro fr a c f hinf hA hC hF hE
    simp [join_pathnameF, truthy, hinf, hA, hC, hF, hE]
    decide
  · intro fr a c f s tok hinf hlook htok hA hB hC hF hE
    simp [join_pathnameF, truthy, hinf, hlook, htok, hA, hB, hC, hF, hE]

/-- Frame for the C5 witness: Part E column absent, irregular spacing
(no inferable frequency). -/
def c5_frame2 : LongFrame :=
  ⟨true, true, true, false, true, false,
   [⟨⟨2020, 1, 1, 0, 0⟩, "CALSIM", "LOC1", "FLOW", "", "F1", "CFS",
     "PER-AVER", "", .num 1, ""⟩,
    ⟨⟨2020, 1, 2, 0, 0⟩, "CALSIM", "LOC1", "FLOW", "", "F1", "CFS",
     "PER-AVER", "", .num 2, ""⟩,
    ⟨⟨2020, 1, 5, 0, 0⟩, "CALSIM", "LOC1", "FLOW", "", "F1", "CFS",
     "PER-AVER", "", .num 3, ""⟩]⟩

/-- Witness for `C5_interval_inference`: the missing-part branch at a
concrete frame. -/
theorem C5_interval_inference_witness :
    join_pathnameF c5_frame2 none none none none
      = .error (.valueError
          "Values required for the following columns: Part E.") :=
  C5_interval_inference.2.2.1 c5_frame2 none none none (by decide)
    (by decide) (by decide) (by decide) (by decide)

/-- Input for the C6 counterexample: three rows, a single pathname, a
single Study value — every elidable part single-valued. -/
def c6_input : TidyTable :=
  ⟨true, [⟨⟨2020, 1, 31, 0, 0⟩, "/CALSIM/LOC1/FLOW//1MON/F1/", "CFS",
     "PER-AVER", .num 10, "S1"⟩,
    ⟨⟨2020, 2, 29, 0, 0⟩, "/CALSIM/LOC1/FLOW//1MON/F1/", "CFS",
     "PER-AVER", .num 20, "S1"⟩,
    ⟨⟨2020, 3, 31, 0, 0⟩, "/CALSIM/LOC1/FLOW//1MON/F1/", "CFS",
     "PER-AVER", .num 30, "S1"⟩]⟩

/-- Claim C6, counterexample: with a Study column present and
single-valued, `tidy_to_condense` drops Study too — the column labels
are exactly {Location, Units & Type}, not "plus Study". -/
theorem C6_counterexample :
    c6_input.hasStudy = true
    ∧ (tidy_to_condense (.tidy c6_input)).isOk = true
    ∧ (match tidy_to_condense (.tidy c6_input) with
       | .ok w => w.levelNames
       | .error _ => []) = ["Part B", "Units & Type"]
    ∧ (match tidy_to_condense (.tidy c6_input) with
       | .ok w => w.levelNames.contains "Study"
       | .error _ => true) = false := by
  refine ⟨by decide, by decide, by decide, by decide⟩

/-- A successful pivot reports exactly the level names it was given. -/
theorem pivotFrame_levelNames {keyOf : PartedRow → List String}
    {names : List String} {prs : List PartedRow} {w : PivotTable}
    (h : pivotFrame keyOf names prs = .ok w) : w.levelNames = names := by
  simp only [pivotFrame] at h
  split at h
  · exact absurd h (by simp)
  · split at h
    · exact absurd h (by simp)
    · cases h
      rfl

/-- Claim C6 (amended): when every elidable part — Source, Category,
Interval, Scenario, and also Study when present — has exactly one
distinct value, a successful `tidy_to_condense` drops all of them
(including Study) and the resulting column labels are exactly
{Location, Units & Type}. -/
theorem C6_maximal_compaction (t : TidyTable) (prs0 : List PartedRow)
    (w : PivotTable)
    (hok : tidy_to_condense (.tidy t) = .ok w)
    (hsplit : mapE splitRow t.rows = .ok prs0)
    (hA : (firstDedup (prs0.map (·.partA))).length = 1)
    (hC : (firstDedup (prs0.map (·.partC))).length = 1)
    (hE : (firstDedup (prs0.map (·.partE))).length = 1)
    (hF : (firstDedup (prs0.map (·.partF))).length = 1)
    (hS : t.hasStudy = true → (firstDedup (prs0.map (·.study))).length = 1) :
    w.levelNames = ["Part B", "Units & Type"] := by
  simp only [tidy_to_condense] at hok
  by_cases hv : is_tidyT t
  case neg =>
    simp [hv] at hok
  case pos =>
    cases hrows : t.rows with
    | nil =>
      rw [hrows] at hok
      simp [hv, splitRows] at hok
    | cons r0 rest => ?_
    rw [hrows] at hok hsplit
    rw [show splitRows (r0 :: rest) = mapE splitRow (r0 :: rest) from rfl,
      hsplit] at hok
    simp only [hv, Bool.not_true, Bool.false_eq_true, if_false] at hok
    have hmA : (List.map (fun r : PartedRow =>
        { r with unitsType := r.units ++ " " ++ r.dataType }) prs0).map
          (fun x => x.partA) = prs0.map (fun x => x.partA) := by
      rw [List.map_map]; rfl
    have hmC : (List.map (fun r : PartedRow =>
        { r with unitsType := r.units ++ " " ++ r.dataType }) prs0).map
          (fun x => x.partC) = prs0.map (fun x => x.partC) := by
      rw [List.map_map]; rfl
    have hmE : (List.map (fun r : PartedRow =>
        { r with unitsType := r.units ++ " " ++ r.dataType }) prs0).map
          (fun x => x.partE) = prs0.map (fun x => x.partE) := by
      rw [List.map_map]; rfl
    have hmF : (List.map (fun r : PartedRow =>
        { r with unitsType := r.units ++ " " ++ r.dataType }) prs0).map
          (fun x => x.partF) = prs0.map (fun x => x.partF) := by
      rw [List.map_map]; rfl
    have hmS : (List.map (fun r : PartedRow =>
        { r with unitsType := r.units ++ " " ++ r.dataType }) prs0).map
          (fun x => x.study) = prs0.map (fun x => x.study) := by
      rw [List.map_map]; rfl
    have hn := pivotFrame_levelNames hok
    rw [hn, hmA, hmC, hmE, hmF, hmS, hA, hC, hE, hF]
    by_cases hstudy : t.hasStudy = true
    · rw [hstudy, hS hstudy]
      simp
    · have hstudy2 : t.hasStudy = false := by
        cases h2 : t.hasStudy
        · rfl
        · exact absurd h2 hstudy
      rw [hstudy2]
      simp

/-- The split rows of `c6_input`. -/
def c6_parted : List PartedRow :=
  [⟨⟨2020, 1, 31, 0, 0⟩, "CALSIM", "LOC1", "FLOW", "1MON", "F1", "CFS",
    "PER-AVER", "", .num 10, "S1"⟩,
   ⟨⟨2020, 2, 29, 0, 0⟩, "CALSIM", "LOC1", "FLOW", "1MON", "F1", "CFS",
    "PER-AVER", "", .num 20, "S1"⟩,
   ⟨⟨2020, 3, 31, 0, 0⟩, "CALSIM", "LOC1", "FLOW", "1MON", "F1", "CFS",
    "PER-AVER", "", .num 30, "S1"⟩]

/-- Witness for `C6_maximal_compaction` at the concrete table. -/
theorem C6_maximal_compaction_witness :
    (match tidy_to_condense (.tidy c6_input) with
     | .ok w => w.levelNames
     | .error _ => ([] : List String)) = ["Part B", "Units & Type"] := by
  cases h : tidy_to_condense (.tidy c6_input) with
  | error e =>
    have hok : (tidy_to_condense (.tidy c6_input)).isOk = true := by decide
    rw [h] at hok
    exact absurd hok (by simp [Except.isOk, Except.toBool])
  | ok w =>
    exact C6_maximal_compaction c6_input c6_parted w h (by decide) (by decide)
      (by decide) (by decide) (by decide) (fun _ => by decide)

theorem store_append_keep {store rest : List Obj} {j : Nat}
    (h : j < store.length) : (store ++ rest)[j]? = store[j]? := by
  rw [List.getElem?_append, if_pos h]

theorem store_set_keep {store : List Obj} {x : Obj} {i j : Nat}
    (h : i ≠ j) : (store.set i x)[j]? = store[j]? :=
  List.getElem?_set_ne h

theorem tidy_to_wideSt_frame (store : List Obj) (r j : Nat)
    (hj : j < store.length) :
    ((tidy_to_wideSt store r).1)[j]? = store[j]?
    ∧ ∀ n, (tidy_to_wideSt store r).2 = .ok n → store.length ≤ n := by
  unfold tidy_to_wideSt
  cases hobj : store.getD r .noneO with
  | tidyO t =>
    by_cases hv : is_tidyT t
    · simp only [hv, Bool.not_true, Bool.false_eq_true, if_false]
      cases hsp : split_pathnameT t with
      | error e =>
        dsimp only
        refine ⟨store_append_keep hj, ?_⟩
        intro n hn
        exact absurd hn (by simp)
      | ok fr =>
        dsimp only
        cases hpv : pivotFrame (wideKeyOf t.hasStudy)
            ((if t.hasStudy then ["Study"] else []) ++ wideLvls) fr.rows with
        | error e =>
          dsimp only
          refine ⟨?_, ?_⟩
          · rw [store_set_keep (by omega), store_append_keep hj]
          · intro n hn
            exact absurd hn (by simp)
        | ok w =>
          dsimp only
          refine ⟨?_, ?_⟩
          · rw [store_append_keep (by simp; omega),
              store_set_keep (by omega), store_append_keep hj]
          · intro n hn
            cases hn
            simp only [List.length_set, List.length_append, List.length_cons,
              List.length_nil]
            omega
    · have hv2 : is_tidyT t = false := by
        cases h2 : is_tidyT t
        · rfl
        · exact absurd h2 hv
      dsimp only
      rw [hv2]
      exact ⟨rfl, fun n hn => absurd hn (by simp)⟩
  | pivotO p => exact ⟨rfl, fun n hn => absurd hn (by simp)⟩
  | frameO fr => exact ⟨rfl, fun n hn => absurd hn (by simp)⟩
  | noneO => exact ⟨rfl, fun n hn => absurd hn (by simp)⟩

theorem wide_to_tidySt_frame (store : List Obj) (r j : Nat)
    (hj : j < store.length) :
    ((wide_to_tidySt store r).1)[j]? = store[j]?
    ∧ ∀ n, (wide_to_tidySt store r).2 = .ok n → store.length ≤ n := by
  unfold wide_to_tidySt
  cases hobj : store.getD r .noneO with
  | pivotO p =>
    by_cases hv : is_wideP p
    · simp only [hv, Bool.not_true, Bool.false_eq_true, if_false]
      cases hjn : join_pathnameF
          { hasA := p.levelNames.contains "Part A"
            hasB := p.levelNames.contains "Part B"
            hasC := p.levelNames.contains "Part C"
            hasE := p.levelNames.contains "Part E"
            hasF := p.levelNames.contains "Part F"
            hasStudy := p.levelNames.contains "Study"
            rows := stackRows (fillnaGrid p) } none none none none with
      | error e =>
        dsimp only
        refine ⟨?_, ?_⟩
        · rw [store_append_keep (by simp only [List.length_set, List.length_append, List.length_cons, List.length_nil]; omega), store_set_keep (by omega),
            store_append_keep hj]
        · intro n hn
          exact absurd hn (by simp)
      | ok trows =>
        dsimp only
        refine ⟨?_, ?_⟩
        · rw [store_set_keep (by simp only [List.length_set, List.length_append, List.length_cons, List.length_nil]; omega), store_set_keep (by simp only [List.length_set, List.length_append, List.length_cons, List.length_nil]; omega),
            store_append_keep (by simp only [List.length_set, List.length_append, List.length_cons, List.length_nil]; omega), store_set_keep (by omega),
            store_append_keep hj]
        · intro n hn
          cases hn
          simp only [List.length_set, List.length_append, List.length_cons,
            List.length_nil]
          omega
    · have hv2 : is_wideP p = false := by
        cases h2 : is_wideP p
        · rfl
        · exact absurd h2 hv
      dsimp only
      rw [hv2]
      exact ⟨rfl, fun n hn => absurd hn (by simp)⟩
  | tidyO t => exact ⟨rfl, fun n hn => absurd hn (by simp)⟩
  | frameO fr => exact ⟨rfl, fun n hn => absurd hn (by simp)⟩
  | noneO => exact ⟨rfl, fun n hn => absurd hn (by simp)⟩

theorem tidy_to_condenseSt_frame (store : List Obj) (r j : Nat)
    (hj : j < store.length) :
    ((tidy_to_condenseSt store r).1)[j]? = store[j]?
    ∧ ∀ n, (tidy_to_condenseSt store r).2 = .ok n → store.length ≤ n := by
  unfold tidy_to_condenseSt
  cases hobj : store.getD r .noneO with
  | tidyO t =>
    by_cases hv : is_tidyT t
    · simp only [hv, Bool.not_true, Bool.false_eq_true, if_false]
      cases hcv : tidy_to_condense (.tidy t) with
      | error e =>
        dsimp only
        cases hsp : split_pathnameT t with
        | error e2 =>
          dsimp only
          refine ⟨store_append_keep hj, fun n hn => absurd hn (by simp)⟩
        | ok fr =>
          dsimp only
          refine ⟨?_, fun n hn => absurd hn (by simp)⟩
          rw [store_set_keep (by omega), store_append_keep hj]
      | ok w =>
        dsimp only
        cases hsp : split_pathnameT t with
        | error e2 =>
          dsimp only
          refine ⟨store_append_keep hj, ?_⟩
          intro n hn
          cases hn
          simp only [List.length_append, List.length_cons, List.length_nil]
          omega
        | ok fr =>
          dsimp only
          refine ⟨?_, ?_⟩
          · rw [store_append_keep (by simp only [List.length_set, List.length_append, List.length_cons, List.length_nil]; omega), store_set_keep (by omega),
              store_append_keep hj]
          · intro n hn
            cases hn
            simp only [List.length_append, List.length_cons, List.length_nil]
            omega
    · have hv2 : is_tidyT t = false := by
        cases h2 : is_tidyT t
        · rfl
        · exact absurd h2 hv
      dsimp only
      rw [hv2]
      exact ⟨rfl, fun n hn => absurd hn (by simp)⟩
  | pivotO p => exact ⟨rfl, fun n hn => absurd hn (by simp)⟩
  | frameO fr => exact ⟨rfl, fun n hn => absurd hn (by simp)⟩
  | noneO => exact ⟨rfl, fun n hn => absurd hn (by simp)⟩

theorem condense_to_tidySt_frame (store : List Obj) (r j : Nat)
    (a c f : Option String) (hj : j < store.length) :
    ((condense_to_tidySt store r a c f).1)[j]? = store[j]?
    ∧ ∀ n, (condense_to_tidySt store r a c f).2 = .ok n → store.length ≤ n := by
  unfold condense_to_tidySt
  cases hobj : store.getD r .noneO with
  | pivotO p =>
    by_cases hv : is_condenseP p
    · simp only [hv, Bool.not_true, Bool.false_eq_true, if_false]
      cases hcv : condense_to_tidy (.pivot p) a c f with
      | error e =>
        dsimp only
        refine ⟨?_, fun n hn => absurd hn (by simp)⟩
        rw [store_append_keep (by simp only [List.length_set, List.length_append, List.length_cons, List.length_nil]; omega), store_set_keep (by omega),
          store_append_keep hj]
      | ok t2 =>
        dsimp only
        refine ⟨?_, ?_⟩
        · rw [store_set_keep (by simp only [List.length_set, List.length_append, List.length_cons, List.length_nil]; omega), store_append_keep (by simp only [List.length_set, List.length_append, List.length_cons, List.length_nil]; omega),
            store_set_keep (by omega), store_append_keep hj]
        · intro n hn
          cases hn
          simp only [List.length_set, List.length_append, List.length_cons,
            List.length_nil]
          omega
    · have hv2 : is_condenseP p = false := by
        cases h2 : is_condenseP p
        · rfl
        · exact absurd h2 hv
      dsimp only
      rw [hv2]
      exact ⟨rfl, fun n hn => absurd hn (by simp)⟩
  | tidyO t => exact ⟨rfl, fun n hn => absurd hn (by simp)⟩
  | frameO fr => exact ⟨rfl, fun n hn => absurd hn (by simp)⟩
  | noneO => exact ⟨rfl, fun n hn => absurd hn (by simp)⟩

/-- Claim C9: each public format conversion, run over an explicit object
store, leaves the input table and every other pre-existing object
unchanged — all in-place mutation targets the `df.copy()` allocated at a
fresh index — and the returned result is a newly allocated object
(its index at or beyond the old store length), never the input. -/
theorem C9_transforms_leave_input_unchanged :
    (∀ (store : List Obj) (r j : Nat), j < store.length →
      ((tidy_to_wideSt store r).1)[j]? = store[j]?
      ∧ ∀ n, (tidy_to_wideSt store r).2 = .ok n → store.length ≤ n)
    ∧ (∀ (store : List Obj) (r j : Nat), j < store.length →
      ((wide_to_tidySt store r).1)[j]? = store[j]?
      ∧ ∀ n, (wide_to_tidySt store r).2 = .ok n → store.length ≤ n)
    ∧ (∀ (store : List Obj) (r j : Nat), j < store.length →
      ((tidy_to_condenseSt store r).1)[j]? = store[j]?
      ∧ ∀ n, (tidy_to_condenseSt store r).2 = .ok n → store.length ≤ n)
    ∧ (∀ (store : List Obj) (r j : Nat) (a c f : Option String),
      j < store.length →
      ((condense_to_tidySt store r a c f).1)[j]? = store[j]?
      ∧ ∀ n, (condense_to_tidySt store r a c f).2 = .ok n → store.length ≤ n) :=
  ⟨tidy_to_wideSt_frame, wide_to_tidySt_frame, tidy_to_condenseSt_frame,
   fun store r j a c f hj => condense_to_tidySt_frame store r j a c f hj⟩

/-- Store holding one tidy table, for the C9 witness. -/
def c9_store : List Obj :=
  [.tidyO ⟨false, [⟨⟨2020, 1, 31, 0, 0⟩, "/CALSIM/LOC1/FLOW//1MON/F1/",
     "CFS", "PER-AVER", .num 10, ""⟩,
    ⟨⟨2020, 2, 29, 0, 0⟩, "/CALSIM/LOC1/FLOW//1MON/F1/", "CFS", "PER-AVER",
     .num 20, ""⟩,
    ⟨⟨2020, 3, 31, 0, 0⟩, "/CALSIM/LOC1/FLOW//1MON/F1/", "CFS", "PER-AVER",
     .num 30, ""⟩]⟩]

/-- Witness for `C9_transforms_leave_input_unchanged` at a concrete
store: the input object at index 0 is untouched and the result is the
fresh object at index 2. -/
theorem C9_transforms_leave_input_unchanged_witness :
    ((tidy_to_wideSt c9_store 0).1)[0]? = c9_store[0]?
    ∧ (1 : Nat) ≤ 2
    ∧ (tidy_to_wideSt c9_store 0).2 = .ok 2 := by
  refine ⟨(C9_transforms_leave_input_unchanged.1 c9_store 0 0 (by decide)).1,
    ?_, by decide⟩
  exact (C9_transforms_leave_input_unchanged.1 c9_store 0 0 (by decide)).2 2
    (by decide)

theorem countP_lt_countP_of {α : Type} (l : List α) (p q : α → Bool)
    (himp : ∀ a ∈ l, p a = true → q a = true) (a : α) (ha : a ∈ l)
    (hqa : q a = true) (hpa : p a = false) :
    l.countP p < l.countP q := by
  induction l with
  | nil => simp at ha
  | cons b l ih =>
    rcases List.mem_cons.mp ha with hab | hal
    · subst hab
      rw [List.countP_cons, List.countP_cons, hpa, hqa]
      have hmono : l.countP p ≤ l.countP q :=
        List.countP_mono_left (fun x hx => himp x (by simp [hx]))
      simp
      omega
    · cases hpb : p b with
      | true =>
        have hqb := himp b (by simp) hpb
        rw [List.countP_cons, List.countP_cons, hpb, hqb]
        have := ih (fun x hx => himp x (by simp [hx])) hal
        omega
      | false =>
        rw [List.countP_cons, List.countP_cons, hpb]
        have := ih (fun x hx => himp x (by simp [hx])) hal
        cases hqb : q b with
        | true => simp; omega
        | false => simp; omega

theorem colMax_mem {l : List CellVal} {m : Rat}
    (h : colMax l = .num m) : CellVal.num m ∈ l := by
  induction l generalizing m with
  | nil => simp [colMax] at h
  | cons v l ih =>
    simp only [colMax] at h
    cases hcm : colMax l with
    | nan =>
      rw [hcm] at h
      cases h
      exact List.mem_cons_self _ _
    | num m2 =>
      rw [hcm] at h
      cases v with
      | nan =>
        cases h
        exact List.mem_cons_of_mem _ (ih hcm)
      | num q =>
        cases h
        rcases max_choice q m2 with hmax | hmax
        · rw [hmax]; exact List.mem_cons_self _ _
        · rw [hmax]; exact List.mem_cons_of_mem _ (ih hcm)

theorem colMax_ge_of_mem {l : List CellVal} {x : Rat}
    (hx : CellVal.num x ∈ l) : ∃ m, colMax l = .num m ∧ x ≤ m := by
  induction l with
  | nil => simp at hx
  | cons v l ih =>
    rcases List.mem_cons.mp hx with hv | hl
    · cases hv
      cases hcm : colMax l with
      | nan => exact ⟨x, by simp [colMax, hcm], le_refl x⟩
      | num m2 => exact ⟨max x m2, by simp [colMax, hcm], le_max_left x m2⟩
    · obtain ⟨m, hm, hxm⟩ := ih hl
      cases v with
      | nan => exact ⟨m, by simp [colMax, hm], hxm⟩
      | num q =>
        exact ⟨max q m, by simp [colMax, hm], le_trans hxm (le_max_right q m)⟩

theorem colMax_eq_num {l : List CellVal} {m : Rat}
    (hmem : CellVal.num m ∈ l) (hub : ∀ q : Rat, CellVal.num q ∈ l → q ≤ m) :
    colMax l = .num m := by
  obtain ⟨m2, hm2, hmm2⟩ := colMax_ge_of_mem hmem
  have : m2 ≤ m := hub m2 (colMax_mem hm2)
  rw [hm2, le_antisymm this hmm2]

theorem nodup_not_mem_take {α : Type} [DecidableEq α] {l : List α} {i : Nat}
    (hnd : l.Nodup) (hi : i < l.length) : l[i] ∉ l.take i := by
  intro hmem
  obtain ⟨j, hj, hij⟩ := List.getElem_of_mem hmem
  rw [List.getElem_take] at hij
  have hjlen : j < i := lt_of_lt_of_le hj (by simp [List.length_take])
  have hji : j = i := by
    have h2 := @List.Nodup.getElem_inj_iff _ _ hnd j
      (lt_of_lt_of_le hjlen (le_of_lt hi)) i hi
    exact h2.mp hij
  omega

/-- Number of entries of `qs` strictly greater than entry `i`: the
descending rank of `qs[i]` is one more than this. -/
def gtCount (qs : List Rat) (i : Nat) : Nat :=
  qs.countP (fun w => decide (qs.getD i 0 < w))

theorem countP_add_not {α : Type} (p : α → Bool) (l : List α) :
    l.countP p + l.countP (fun a => !p a) = l.length := by
  induction l with
  | nil => rfl
  | cons b l ih =>
    rw [List.countP_cons, List.countP_cons, List.length_cons]
    cases hpb : p b <;> simp [hpb] <;> omega

theorem countP_lt_length_of_false {α : Type} {l : List α} {p : α → Bool}
    {a : α} (ha : a ∈ l) (hpa : p a = false) : l.countP p < l.length := by
  induction l with
  | nil => simp at ha
  | cons b l ih =>
    rw [List.countP_cons, List.length_cons]
    rcases List.mem_cons.mp ha with hab | hal
    · subst hab
      rw [hpa]
      have hle := List.countP_le_length (p := p) (l := l)
      simp
      omega
    · have := ih hal
      cases hpb : p b <;> simp <;> omega

theorem exists_list_min {l : List Rat} (hne : l ≠ []) :
    ∃ m, m ∈ l ∧ ∀ b ∈ l, m ≤ b := by
  induction l with
  | nil => exact absurd rfl hne
  | cons a l ih =>
    cases l with
    | nil => exact ⟨a, by simp, by simp⟩
    | cons b t =>
      obtain ⟨m, hm, hmin⟩ := ih (by simp)
      by_cases hle : a ≤ m
      · refine ⟨a, by simp, ?_⟩
        intro x hx
        rcases List.mem_cons.mp hx with h | h
        · simp [h]
        · exact le_trans hle (hmin x h)
      · refine ⟨m, List.mem_cons_of_mem _ hm, ?_⟩
        intro x hx
        rcases List.mem_cons.mp hx with h | h
        · subst h
          exact le_of_not_le hle
        · exact hmin x h

theorem getD_eq_getElem_at {qs : List Rat} {i : Nat} (hi : i < qs.length) :
    qs.getD i 0 = qs[i] := by
  rw [List.getD_eq_getElem?_getD, List.getElem?_eq_getElem hi, Option.getD_some]

theorem rankFirstDescBy_entry {α : Type} (gt : α → α → Bool) (isN : α → Bool)
    (eqb : α → α → Bool) (col : List α) (i : Nat) (v : α)
    (hv : col.get? i = some v) (hnn : isN v = false) :
    (rankFirstDescBy gt isN eqb col).get? i
      = some (.num (1 + ((col.countP (fun w => !isN w && gt w v) : Nat) : Rat)
          + (((col.take i).countP (fun w => eqb w v) : Nat) : Rat))) := by
  have hi : i < col.length := by
    by_contra hge
    rw [List.get?_eq_getElem?, List.getElem?_eq_none (by omega)] at hv
    cases hv
  unfold rankFirstDescBy
  rw [List.get?_eq_getElem?, List.getElem?_map,
    List.getElem?_range (by simpa using hi)]
  simp only [Option.map_some']
  rw [hv]
  dsimp only
  rw [hnn]
  simp

theorem rankFirstDesc_map_num (qs : List Rat) (hnd : qs.Nodup) :
    rankFirstDescBy cellGt cellIsNan (fun a b => a == b) (qs.map CellVal.num)
      = (List.range qs.length).map
          (fun i => CellVal.num ((1 + gtCount qs i : Nat) : Rat)) := by
  apply List.ext_get?
  intro n
  by_cases hn : n < qs.length
  · have hget : (qs.map CellVal.num).get? n = some (.num qs[n]) := by
      rw [List.get?_eq_getElem?, List.getElem?_map, List.getElem?_eq_getElem hn]
      rfl
    rw [rankFirstDescBy_entry cellGt cellIsNan (fun a b => a == b)
      (qs.map CellVal.num) n (.num qs[n]) hget rfl]
    have hcount : (qs.map CellVal.num).countP
        (fun w => !cellIsNan w && cellGt w (.num qs[n]))
        = gtCount qs n := by
      rw [List.countP_map]
      unfold gtCount
      apply List.countP_congr
      intro a _
      simp [Function.comp, cellIsNan, cellGt, List.getElem?_eq_getElem hn]
    have htie : ((qs.map CellVal.num).take n).countP
        (fun w => (fun a b => a == b) w (CellVal.num qs[n])) = 0 := by
      rw [← List.map_take, List.countP_map]
      rw [List.countP_eq_zero]
      intro a ha
      have hne2 : a ≠ qs[n] := by
        intro hcontra
        exact nodup_not_mem_take hnd hn (hcontra ▸ ha)
      simp [Function.comp, hne2]
    rw [hcount, htie]
    rw [List.get?_eq_getElem?, List.getElem?_map,
      List.getElem?_range (by simpa using hn)]
    simp only [Option.map_some', Option.some.injEq]
    congr 1
    push_cast
    ring
  · rw [List.get?_eq_getElem?, List.getElem?_eq_none
      (by simp [rankFirstDescBy]; omega)]
    rw [List.get?_eq_getElem?, List.getElem?_eq_none (by simp; omega)]

theorem gtCount_lt_length (qs : List Rat) (i : Nat) (hi : i < qs.length) :
    gtCount qs i < qs.length := by
  unfold gtCount
  refine countP_lt_length_of_false (a := qs[i]) (List.getElem_mem hi) ?_
  simp [List.getD_eq_getElem?_getD, List.getElem?_eq_getElem hi]

theorem excdProbs_map_num (qs : List Rat) (hnd : qs.Nodup) :
    excdProbs (qs.map CellVal.num)
      = (List.range qs.length).map
          (fun i => CellVal.num (((1 + gtCount qs i : Nat) : Rat)
            / ((qs.length : Rat) + 1))) := by
  cases hqs : qs with
  | nil => rfl
  | cons q0 qtail =>
    rw [← hqs]
    have hne : qs ≠ [] := by rw [hqs]; exact List.cons_ne_nil q0 qtail
    have hlen : 0 < qs.length := List.length_pos.mpr hne
    simp only [excdProbs, excdProbsBy]
    rw [rankFirstDesc_map_num qs hnd]
    have hmax : colMax ((List.range qs.length).map
        (fun i => CellVal.num ((1 + gtCount qs i : Nat) : Rat)))
        = .num ((qs.length : Nat) : Rat) := by
      apply colMax_eq_num
      · obtain ⟨m0, hm0mem, hm0min⟩ := exists_list_min hne
        obtain ⟨i0, hi0, hi0eq⟩ := List.getElem_of_mem hm0mem
        have hG : gtCount qs i0 = qs.length - 1 := by
          unfold gtCount
          have hsplit := countP_add_not
            (fun w => decide (qs.getD i0 0 < w)) qs
          have hone : qs.countP (fun w => !decide (qs.getD i0 0 < w)) = 1 := by
            have hc : qs.countP (fun w => !decide (qs.getD i0 0 < w))
                = qs.countP (fun w => w == m0) := by
              apply List.countP_congr
              intro a ha
              have hle : m0 ≤ a := hm0min a ha
              rw [getD_eq_getElem_at hi0, hi0eq]
              cases hcmp : (a == m0) with
              | true =>
                simp only [beq_iff_eq] at hcmp
                subst hcmp
                simp
              | false =>
                rw [beq_eq_false_iff_ne] at hcmp
                have hlt : m0 < a := lt_of_le_of_ne hle (fun h => hcmp h.symm)
                rw [decide_eq_true hlt]
                simp
            rw [hc]
            exact List.count_eq_one_of_mem hnd hm0mem
          omega
        refine List.mem_map.mpr ⟨i0, List.mem_range.mpr hi0, ?_⟩
        rw [hG]
        congr 1
        congr 1
        omega
      · intro q hq
        obtain ⟨i, hi, hieq⟩ := List.mem_map.mp hq
        have hi2 : i < qs.length := List.mem_range.mp hi
        have hGlt := gtCount_lt_length qs i hi2
        have hcast : ((1 + gtCount qs i : Nat) : Rat)
            ≤ ((qs.length : Nat) : Rat) := by
          exact_mod_cast by omega
        cases hieq
        exact hcast
    rw [hmax]
    dsimp only
    rw [List.map_map]
    apply List.map_congr_left
    intro i _
    rfl

theorem gtCount_lt_gtCount (qs : List Rat) (i j : Nat)
    (hi : i < qs.length) (hj : j < qs.length) (hlt : qs[j] < qs[i]) :
    gtCount qs i < gtCount qs j := by
  unfold gtCount
  simp only [getD_eq_getElem_at hi, getD_eq_getElem_at hj]
  refine countP_lt_countP_of qs _ _ ?_ qs[i] (List.getElem_mem hi) ?_ ?_
  · intro a ha hpa
    rw [decide_eq_true_eq] at hpa
    exact decide_eq_true (lt_trans hlt hpa)
  · exact decide_eq_true hlt
  · simp

/-- Claim C7: for a series of N distinct non-missing values, the
exceedance probabilities computed by the ranking step of
`MonthlyExceedence` (`excdProbs`, i.e.
`rank(method='first', ascending=False) / (max_rank + 1)`) are exactly
rank/(N+1) with ranks assigned in descending value order, all strictly
inside (0,1), strictly increasing as the associated value decreases,
and pairwise distinct. -/
theorem C7_exceedance_monotone (qs : List Rat) (hnd : qs.Nodup) :
    (excdProbs (qs.map CellVal.num)).length = qs.length
    ∧ (∀ i, (hi : i < qs.length) →
        (excdProbs (qs.map CellVal.num))[i]?
          = some (CellVal.num (((1 + gtCount qs i : Nat) : Rat)
              / ((qs.length : Rat) + 1))))
    ∧ (∀ i, i < qs.length →
        0 < ((1 + gtCount qs i : Nat) : Rat) / ((qs.length : Rat) + 1)
        ∧ ((1 + gtCount qs i : Nat) : Rat) / ((qs.length : Rat) + 1) < 1)
    ∧ (∀ i j, (hi : i < qs.length) → (hj : j < qs.length) →
        qs[j] < qs[i] →
        ((1 + gtCount qs i : Nat) : Rat) / ((qs.length : Rat) + 1)
          < ((1 + gtCount qs j : Nat) : Rat) / ((qs.length : Rat) + 1))
    ∧ (∀ i j, (hi : i < qs.length) → (hj : j < qs.length) → i ≠ j →
        ((1 + gtCount qs i : Nat) : Rat) / ((qs.length : Rat) + 1)
          ≠ ((1 + gtCount qs j : Nat) : Rat) / ((qs.length : Rat) + 1)) := by
  have hden : (0 : Rat) < (qs.length : Rat) + 1 := by positivity
  have hmono : ∀ i j, (hi : i < qs.length) → (hj : j < qs.length) →
      qs[j] < qs[i] →
      ((1 + gtCount qs i : Nat) : Rat) / ((qs.length : Rat) + 1)
        < ((1 + gtCount qs j : Nat) : Rat) / ((qs.length : Rat) + 1) := by
    intro i j hi hj hlt
    have hg := gtCount_lt_gtCount qs i j hi hj hlt
    gcongr
  refine ⟨?_, ?_, ?_, hmono, ?_⟩
  · rw [excdProbs_map_num qs hnd]
    simp
  · intro i hi
    rw [excdProbs_map_num qs hnd]
    rw [List.getElem?_map, List.getElem?_range (by simpa using hi)]
    rfl
  · intro i hi
    constructor
    · apply div_pos _ hden
      exact_mod_cast (show 0 < 1 + gtCount qs i by omega)
    · rw [div_lt_one hden]
      have := gtCount_lt_length qs i hi
      push_cast
      exact_mod_cast by omega
  · intro i j hi hj hne
    rcases lt_trichotomy qs[i] qs[j] with hlt | heq | hgt
    · exact ne_of_gt (hmono j i hj hi hlt)
    · exact absurd ((List.Nodup.getElem_inj_iff hnd).mp heq) hne
    · exact ne_of_lt (hmono i j hi hj hgt)

/-- Witness for `C7_exceedance_monotone` at the concrete series
`[5, 1, 3]`. -/
theorem C7_exceedance_monotone_witness :
    (excdProbs ([5, 1, 3].map CellVal.num)).length = 3
    ∧ 0 < ((1 + gtCount [5, 1, 3] 0 : Nat) : Rat) / (((3 : Nat) : Rat) + 1)
    ∧ ((1 + gtCount [5, 1, 3] 0 : Nat) : Rat) / (((3 : Nat) : Rat) + 1) < 1 := by
  have h := C7_exceedance_monotone [5, 1, 3] (by decide)
  refine ⟨by simpa using h.1, ?_, ?_⟩
  · exact_mod_cast (h.2.2.1 0 (by decide)).1
  · exact_mod_cast (h.2.2.1 0 (by decide)).2

/- ## Ordering lemmas for the sorted pivot and stack orders. -/

theorem dtLeB_total : ∀ a b, dtLeB a b = true ∨ dtLeB b a = true := by
  intro a b
  unfold dtLeB
  rcases Int.le_total a.toMinutes b.toMinutes with h | h
  · exact Or.inl (decide_eq_true h)
  · exact Or.inr (decide_eq_true h)

theorem sortLe_eq_self {α : Type} (le : α → α → Bool) :
    ∀ l, chainLe le l = true → sortLe le l = l
  | [], _ => rfl
  | [x], _ => rfl
  | x :: y :: l, h => by
    simp only [chainLe, Bool.and_eq_true] at h
    show insertLe le x (sortLe le (y :: l)) = x :: y :: l
    rw [sortLe_eq_self le (y :: l) h.2]
    unfold insertLe
    rw [if_pos h.1]

theorem chainLe_zip_left {α β : Type} (le : α → α → Bool) :
    ∀ (l1 : List α) (l2 : List β), chainLe le l1 = true →
      chainLe (fun p q => le p.1 q.1) (l1.zip l2) = true
  | [], _, _ => rfl
  | [_], l2, _ => by cases l2 <;> rfl
  | _ :: _ :: _, [], _ => rfl
  | _ :: _ :: _, [_], _ => rfl
  | a :: a2 :: l1, b :: b2 :: l2, h => by
    simp only [List.zip_cons_cons, chainLe, Bool.and_eq_true] at h ⊢
    exact ⟨h.1, chainLe_zip_left le (a2 :: l1) (b2 :: l2) h.2⟩

theorem sortLe_zip_eq_self {β : Type} {ks : List (List String)}
    (hks : chainLe keyLeB ks = true) (l2 : List β) :
    sortLe (fun a b => keyLeB a.1 b.1) (ks.zip l2) = ks.zip l2 :=
  sortLe_eq_self _ _ (chainLe_zip_left keyLeB ks l2 hks)

/- ## C10 support: positional structure of the stack / join / replace
pipeline shared by `wide_to_tidy` and `condense_to_tidy`. -/

theorem flatMap_eq_flatten_map {α β : Type} (f : α → List β) :
    ∀ (l : List α), l.flatMap f = (l.map f).flatten
  | [] => rfl
  | a :: l => by
    simp only [List.flatMap_cons, List.map_cons, List.flatten_cons,
      flatMap_eq_flatten_map f l]

theorem map_id_fun {α : Type} : ∀ (l : List α), l.map (fun a => a) = l
  | [] => rfl
  | a :: l => by rw [List.map_cons, map_id_fun l]

theorem map_snd_zip_le {α β : Type} :
    ∀ (l1 : List α) (l2 : List β), l2.length ≤ l1.length →
      (l1.zip l2).map Prod.snd = l2
  | _, [], _ => by simp
  | [], b :: l2, h => by simp at h
  | a :: l1, b :: l2, h => by
    simp only [List.zip_cons_cons, List.map_cons]
    rw [map_snd_zip_le l1 l2 (by simpa using h)]

/-- Indexing a flatMap whose pieces all have length `K`: entry
`i * K + j` comes from piece `i` at offset `j`. -/
theorem flatMap_getElem_uniform {α β : Type} (f : α → List β) (K : Nat) :
    ∀ (l : List α), (∀ a ∈ l, (f a).length = K) →
      ∀ i j, (hi : i < l.length) → j < K →
        (l.flatMap f)[i * K + j]? = (f l[i])[j]? := by
  intro l
  induction l with
  | nil => intro _ i j hi _; simp at hi
  | cons a tl ih =>
    intro hK i j hi hj
    have ha : (f a).length = K := hK a (by simp)
    cases i with
    | zero =>
      simp only [Nat.zero_mul, Nat.zero_add, List.flatMap_cons,
        List.getElem_cons_zero]
      rw [List.getElem?_append, if_pos (by omega)]
    | succ i2 =>
      have hmul : (i2 + 1) * K = i2 * K + K := by ring
      simp only [List.flatMap_cons, List.getElem_cons_succ]
      rw [List.getElem?_append, if_neg (by omega)]
      have hidx : (i2 + 1) * K + j - (f a).length = i2 * K + j := by omega
      rw [hidx]
      exact ih (fun x hx => hK x (List.mem_cons_of_mem a hx)) i2 j
        (by simpa using Nat.lt_of_succ_lt_succ hi) hj

/-- The Value column of `stack` + `reset_index` is the row-major
flattening of the cell grid (rectangular grids). -/
theorem stackRows_map_value (q : PivotTable)
    (hsort : chainLe keyLeB q.colKeys = true)
    (hlen : q.cells.length = q.times.length)
    (huni : ∀ row ∈ q.cells, row.length = q.colKeys.length) :
    (stackRows q).map (fun r => r.value) = q.cells.flatten := by
  unfold stackRows
  rw [List.map_flatMap, flatMap_eq_flatten_map]
  congr 1
  refine Eq.trans (List.map_congr_left ?_)
    (map_snd_zip_le q.times q.cells (le_of_eq hlen))
  intro tc htc
  obtain ⟨t1, c1⟩ := tc
  have hc1 : c1 ∈ q.cells := (List.of_mem_zip htc).2
  dsimp only
  rw [sortLe_zip_eq_self hsort, List.map_map]
  exact map_snd_zip_le q.colKeys c1 (le_of_eq (huni c1 hc1))

/-- A successful `join_pathname` leaves the Value column unchanged. -/
theorem join_pathnameF_rows_map_value {fr : LongFrame}
    {a c e f : Option String} {rs : List TidyRow}
    (h : join_pathnameF fr a c e f = Except.ok rs) :
    rs.map (fun r => r.value) = fr.rows.map (fun r => r.value) := by
  unfold join_pathnameF at h
  split at h
  · exact absurd h (by simp)
  · rename_i e2 heq2
    generalize hM : ((if !fr.hasA && !truthy a then ["Part A"] else [])
      ++ (if !fr.hasC && !truthy c then ["Part C"] else [])
      ++ (if !fr.hasE && !truthy e2 then ["Part E"] else [])
      ++ (if !fr.hasF && !truthy f then ["Part F"] else []) : List String) = m at h
    dsimp only at h
    split at h
    · split at h
      · exact absurd h (by simp)
      · rw [Except.ok.injEq] at h
        subst h
        rw [List.map_map]
        rfl
    · exact absurd h (by simp)

/-- A successful `mapE` whose function preserves the `value` field
leaves the Value column unchanged. -/
theorem mapE_ok_map_value {f : PartedRow → Except PdErr PartedRow}
    (hpres : ∀ r s, f r = Except.ok s → s.value = r.value) :
    ∀ {l l2 : List PartedRow}, mapE f l = Except.ok l2 →
      l2.map (fun r => r.value) = l.map (fun r => r.value) := by
  intro l
  induction l with
  | nil =>
    intro l2 h
    simp only [mapE, Except.ok.injEq] at h
    subst h
    rfl
  | cons a tl ih =>
    intro l2 h
    simp only [mapE] at h
    cases hfa : f a with
    | error e => rw [hfa] at h; exact absurd h (by simp)
    | ok b =>
      rw [hfa] at h
      cases hrec : mapE f tl with
      | error e => rw [hrec] at h; exact absurd h (by simp)
      | ok bs =>
        rw [hrec] at h
        simp only [Except.ok.injEq] at h
        subst h
        simp only [List.map_cons, hpres a b hfa, ih hrec]

/-- The 'Units & Type' splitter of `condense_to_tidy` preserves the
`value` field whenever it succeeds. -/
theorem condSplit_preserves_value (r s : PartedRow)
    (h : (match pySplitWs r.unitsType with
          | [u, d] => Except.ok { r with units := u, dataType := d }
          | _ => Except.error
              (PdErr.valueError "Columns must be same length as key"))
        = Except.ok s) :
    s.value = r.value := by
  cases hps : pySplitWs r.unitsType with
  | nil =>
    rw [hps] at h
    simp at h
  | cons u rest =>
    cases rest with
    | nil =>
      rw [hps] at h
      simp at h
    | cons d rest2 =>
      cases rest2 with
      | nil =>
        rw [hps] at h
        dsimp only at h
        rw [Except.ok.injEq] at h
        subst h
        rfl
      | cons x xs =>
        rw [hps] at h
        simp at h

/-- Core of C10: with a rectangular grid whose cell (i, j) is the
genuine number -901, the fillna / stack / join / replace pipeline
produces NaN in the tidy row `i * K + j`. -/
theorem sentinel_roundtrip_core (p : PivotTable) (rows2 : List PartedRow)
    (trows : List TidyRow) (i j : Nat)
    (hsort : chainLe keyLeB p.colKeys = true)
    (hi : i < p.times.length) (hj : j < p.colKeys.length)
    (hlen : p.cells.length = p.times.length)
    (huni : ∀ row ∈ p.cells, row.length = p.colKeys.length)
    (hcell : (p.cells.getD i []).getD j CellVal.nan = CellVal.num (-901))
    (hstack : rows2.map (fun r => r.value)
      = (stackRows (fillnaGrid p)).map (fun r => r.value))
    (hjoinvals : trows.map (fun r => r.value) = rows2.map (fun r => r.value)) :
    ((trows.map (fun r =>
        { r with value := r.value.replaceWithNan (-901) }))[i * p.colKeys.length + j]?).map
      (fun r => r.value) = some CellVal.nan := by
  have hic : i < p.cells.length := by omega
  have hic2 : i < (fillnaGrid p).cells.length := by
    simp only [fillnaGrid, List.length_map]
    omega
  have hK : ∀ row ∈ (fillnaGrid p).cells, row.length = p.colKeys.length := by
    intro row hrow
    simp only [fillnaGrid] at hrow
    obtain ⟨orig, horig, heq⟩ := List.mem_map.mp hrow
    rw [← heq, List.length_map]
    exact huni orig horig
  have hlen2 : (fillnaGrid p).cells.length = (fillnaGrid p).times.length := by
    simp only [fillnaGrid, List.length_map]
    exact hlen
  have hmv := stackRows_map_value (fillnaGrid p) hsort hlen2 hK
  have hid : (fillnaGrid p).cells.flatMap (fun row => row)
      = (fillnaGrid p).cells.flatten := by
    rw [flatMap_eq_flatten_map]
    congr 1
    exact map_id_fun _
  have key := flatMap_getElem_uniform (fun row => row) p.colKeys.length
    (fillnaGrid p).cells hK i j hic2 hj
  have hjrow : j < (p.cells[i]).length := by
    rw [huni _ (List.getElem_mem hic)]
    exact hj
  nth_rewrite 2 [List.getD_eq_getElem?_getD] at hcell
  rw [List.getElem?_eq_getElem hic, Option.getD_some] at hcell
  rw [List.getD_eq_getElem?_getD, List.getElem?_eq_getElem hjrow,
    Option.getD_some] at hcell
  rw [List.getElem?_map, Option.map_map]
  show (trows[i * p.colKeys.length + j]?).map
    (fun r => (r.value).replaceWithNan (-901)) = some CellVal.nan
  have hsplit : (fun (r : TidyRow) => (r.value).replaceWithNan (-901))
      = (CellVal.replaceWithNan (-901)) ∘ (fun r => r.value) := rfl
  rw [hsplit, ← Option.map_map, ← List.getElem?_map, hjoinvals, hstack, hmv,
    ← hid, key]
  simp only [fillnaGrid]
  rw [List.getElem_map, List.getElem?_map, List.getElem?_eq_getElem hjrow, hcell]
  rfl

/-- Claim C10: the missing-value sentinel is the literal number -901,
and `wide_to_tidy` / `condense_to_tidy` cannot distinguish it from real
data: a genuine -901 cell at grid position (i, j) of a wide table with
lexsorted columns (resp. (m, n) of a condense table with lexsorted
columns; `stack` sorts a non-lexsorted column MultiIndex, so sortedness
pins each cell's position in the stacked output) comes out of the
conversion as NaN in the corresponding tidy row, silently converting
the legitimate value to missing. -/
theorem C10_sentinel_to_nan (p q : PivotTable) (a c f : Option String)
    (t u : TidyTable) (i j m n : Nat)
    (hsortp : chainLe keyLeB p.colKeys = true)
    (hsortq : chainLe keyLeB q.colKeys = true)
    (hip : i < p.times.length) (hjp : j < p.colKeys.length)
    (hlenp : p.cells.length = p.times.length)
    (hunip : ∀ row ∈ p.cells, row.length = p.colKeys.length)
    (hcellp : (p.cells.getD i []).getD j CellVal.nan = CellVal.num (-901))
    (hokp : wide_to_tidy (.pivot p) = Except.ok t)
    (hiq : m < q.times.length) (hjq : n < q.colKeys.length)
    (hlenq : q.cells.length = q.times.length)
    (huniq : ∀ row ∈ q.cells, row.length = q.colKeys.length)
    (hcellq : (q.cells.getD m []).getD n CellVal.nan = CellVal.num (-901))
    (hokq : condense_to_tidy (.pivot q) a c f = Except.ok u) :
    (t.rows[i * p.colKeys.length + j]?).map (fun r => r.value) = some CellVal.nan
    ∧ (u.rows[m * q.colKeys.length + n]?).map (fun r => r.value)
      = some CellVal.nan := by
  constructor
  · simp only [wide_to_tidy] at hokp
    split at hokp
    · exact absurd hokp (by simp)
    · split at hokp
      · exact absurd hokp (by simp)
      · rename_i trows heq
        rw [Except.ok.injEq] at hokp
        subst hokp
        exact sentinel_roundtrip_core p (stackRows (fillnaGrid p)) trows i j
          hsortp hip hjp hlenp hunip hcellp rfl
          (join_pathnameF_rows_map_value heq)
  · simp only [condense_to_tidy] at hokq
    split at hokq
    · exact absurd hokq (by simp)
    · split at hokq
      · exact absurd hokq (by simp)
      · split at hokq
        · exact absurd hokq (by simp)
        · rename_i rows2 hmap
          split at hokq
          · exact absurd hokq (by simp)
          · rename_i trows heq
            rw [Except.ok.injEq] at hokq
            subst hokq
            exact sentinel_roundtrip_core q rows2 trows m n hsortq hiq hjq
              hlenq huniq hcellq
              (mapE_ok_map_value (fun r s h => condSplit_preserves_value r s h)
                hmap)
              (join_pathnameF_rows_map_value heq)

/-- Concrete tables for the C10 witness: a 3x2 monthly wide grid and a
3x2 monthly condense grid, each holding the genuine value -901 in the
first row of the second column. -/
def c10wide : PivotTable :=
  { levelNames := ["Part A", "Part B", "Part C", "Part E", "Part F",
      "Units", "Data Type"]
    colKeys := [["CALSIM", "S_OROVL", "STORAGE", "1MON", "L2020A", "TAF",
        "PER-AVER"],
      ["CALSIM", "S_SHSTA", "STORAGE", "1MON", "L2020A", "TAF", "PER-AVER"]]
    times := [⟨1921, 1, 31, 0, 0⟩, ⟨1921, 2, 28, 0, 0⟩, ⟨1921, 3, 31, 0, 0⟩]
    cells := [[CellVal.num 100, CellVal.num (-901)],
      [CellVal.num 200, CellVal.num 300],
      [CellVal.num 400, CellVal.num 500]] }

/-- Condense-format companion table for the C10 witness. -/
def c10cond : PivotTable :=
  { levelNames := ["Part B", "Units & Type"]
    colKeys := [["S_OROVL", "TAF STORAGE"], ["S_SHSTA", "TAF STORAGE"]]
    times := [⟨1921, 1, 31, 0, 0⟩, ⟨1921, 2, 28, 0, 0⟩, ⟨1921, 3, 31, 0, 0⟩]
    cells := [[CellVal.num 100, CellVal.num (-901)],
      [CellVal.num 200, CellVal.num 300],
      [CellVal.num 400, CellVal.num 500]] }

/-- Witness for `C10_sentinel_to_nan` at the concrete 3x2 wide and
condense tables: both conversions succeed and both report NaN where the
input held the genuine value -901. -/
theorem C10_sentinel_to_nan_witness :
    ∃ t u : TidyTable,
      wide_to_tidy (.pivot c10wide) = Except.ok t
      ∧ condense_to_tidy (.pivot c10cond) (some "CALSIM") (some "STORAGE")
          (some "L2020A") = Except.ok u
      ∧ (t.rows[0 * c10wide.colKeys.length + 1]?).map (fun r => r.value)
          = some CellVal.nan
      ∧ (u.rows[0 * c10cond.colKeys.length + 1]?).map (fun r => r.value)
          = some CellVal.nan := by
  refine ⟨_, _, rfl, rfl, ?_, ?_⟩
  · exact (C10_sentinel_to_nan c10wide c10cond (some "CALSIM") (some "STORAGE")
      (some "L2020A") _ _ 0 1 0 1 (by decide) (by decide) (by decide)
      (by decide) (by decide) (by decide) (by decide) rfl (by decide)
      (by decide) (by decide) (by decide) (by decide) rfl).1
  · exact (C10_sentinel_to_nan c10wide c10cond (some "CALSIM") (some "STORAGE")
      (some "L2020A") _ _ 0 1 0 1 (by decide) (by decide) (by decide)
      (by decide) (by decide) (by decide) (by decide) rfl (by decide)
      (by decide) (by decide) (by decide) (by decide) rfl).2

/- ## C1/C2 support: the tidy → wide → tidy round trip. -/

